import Mathlib

/-!
# Verification of the Sentinel document threat-analysis pipeline

Shallow embedding of `src/processor/nlp_pipeline.py` (class `SentinelNLP`)
and `src/processor/memory_optimization.py` (`batch_process`).

External capabilities (the spaCy model: named-entity recognition, document
embeddings and cosine similarity, sentence segmentation; the `re` regex
engine applied to the fixed pattern library; the optional transformer
classifier) are abstracted as the fields of a `Caps` record.  Everything
the repository itself computes — text normalization, entity-dictionary
assembly, keyword scoring, min-max normalization, pattern-weight
assignment, relationship rules, score aggregation, summarization and batch
orchestration — is embedded concretely below, mirroring the Python line by
line.  Python `float` arithmetic is idealized as `ℚ`; Python `dict`s are
association lists updated in insertion order, exactly as CPython preserves
them.
-/

namespace Sentinel

/-! ## Python string primitives

Counterparts of the Python string operations the pipeline uses:
`str.lower`, `str.strip`, `str.split()`, the substring operator `in`,
`str.count`, and the two `re.sub` calls of `preprocess_text`. -/

/-- Python's `\s` class restricted to ASCII (the pipeline's data is ASCII). -/
def pyIsSpace (c : Char) : Bool :=
  c = ' ' || c = '\t' || c = '\n' || c = '\r' || c = '\x0b' || c = '\x0c'

/-- `str.lower()` (ASCII, as in CPython for ASCII input). -/
def pyLower (s : String) : String :=
  ⟨s.data.map Char.toLower⟩

/-- Does `hay` start with `needle` (on character lists)? -/
def startsWithL : List Char → List Char → Bool
  | [], _ => true
  | _ :: _, [] => false
  | a :: as, b :: bs => a = b && startsWithL as bs

/-- Python's substring test `needle in hay` on character lists. -/
def hasSubstrL (needle : List Char) : List Char → Bool
  | [] => startsWithL needle []
  | c :: cs => startsWithL needle (c :: cs) || hasSubstrL needle cs

/-- Python's substring test `needle in hay`. -/
def hasSubstr (needle hay : String) : Bool :=
  hasSubstrL needle.data hay.data

/-- Python's `hay.count(needle)`, non-overlapping and left to right, on
character lists.  The `skip` counter carries the number of positions still
covered by the previous match. -/
def countSubstrL (needle : List Char) : List Char → Nat → Nat
  | [], _ => 0
  | _ :: cs, skip + 1 => countSubstrL needle cs skip
  | c :: cs, 0 =>
    if startsWithL needle (c :: cs) then
      1 + countSubstrL needle cs (needle.length - 1)
    else
      countSubstrL needle cs 0

/-- Python's `hay.count(needle)` (for a nonempty needle, as at every call
site). -/
def pyCount (hay needle : String) : Nat :=
  countSubstrL needle.data hay.data 0

/-- Python's `str.replace(needle, repl)` (replace all, non-overlapping,
left to right) on character lists, with the same skip counter. -/
def replaceAllL (needle repl : List Char) : List Char → Nat → List Char
  | [], _ => []
  | _ :: cs, skip + 1 => replaceAllL needle repl cs skip
  | c :: cs, 0 =>
    if startsWithL needle (c :: cs) then
      repl ++ replaceAllL needle repl cs (needle.length - 1)
    else
      c :: replaceAllL needle repl cs 0

/-- Python's `s.replace(needle, repl)` (for a nonempty needle, as at every
call site). -/
def pyReplace (s needle repl : String) : String :=
  ⟨replaceAllL needle.data repl.data s.data 0⟩

/-- Python's `str.strip()` (whitespace from both ends). -/
def pyStrip (s : String) : String :=
  ⟨((s.data.dropWhile pyIsSpace).reverse.dropWhile pyIsSpace).reverse⟩

/-- Python's `str.split(sep)` with a one-character separator, on character
lists (accumulator holds the current piece reversed). -/
def splitSepL (sep : Char) : List Char → List Char → List String
  | [], acc => [⟨acc.reverse⟩]
  | c :: cs, acc =>
    if c = sep then ⟨acc.reverse⟩ :: splitSepL sep cs []
    else splitSepL sep cs (c :: acc)

/-- Python's `str.split()` with no argument: split on whitespace runs,
dropping empty pieces. -/
def splitWs (s : String) : List String :=
  (splitSepL ' ' (s.data.map (fun c => if pyIsSpace c then ' ' else c)) []).filter (· ≠ "")

/-- `re.sub(r'\s+', ' ', ·)` on character lists: every maximal whitespace
run becomes a single space.  The flag records whether the previous
character was whitespace (inside a run nothing more is emitted). -/
def collapseWsL : List Char → Bool → List Char
  | [], _ => []
  | c :: cs, inRun =>
    if pyIsSpace c then
      if inRun then collapseWsL cs true else ' ' :: collapseWsL cs true
    else c :: collapseWsL cs false

/-- Is the list nonempty with a non-space first character?  (`\S+` needs at
least one non-space character.) -/
def headNonSpace : List Char → Bool
  | [] => false
  | c :: _ => !pyIsSpace c

/-- Does a match of `https?://\S+|www\.\S+` begin at this position? -/
def urlStart (l : List Char) : Bool :=
  (startsWithL "https://".data l && headNonSpace (l.drop 8)) ||
  (startsWithL "http://".data l && headNonSpace (l.drop 7)) ||
  (startsWithL "www.".data l && headNonSpace (l.drop 4))

/-- `re.sub(r'https?://\S+|www\.\S+', '', ·)` on character lists: at each
position, the leftmost match of `http://`, `https://` or `www.` followed by
at least one non-space character is removed together with the whole
following non-space run.  The flag records that the scan is inside a
removed run (everything up to the next whitespace is dropped). -/
def removeUrlsL : List Char → Bool → List Char
  | [], _ => []
  | c :: cs, skipping =>
    if skipping then
      if pyIsSpace c then c :: removeUrlsL cs false
      else removeUrlsL cs true
    else if urlStart (c :: cs) then removeUrlsL cs true
    else c :: removeUrlsL cs false

/-- Association-list lookup (Python `dict[k]` / `k in dict`). -/
def aget {β : Type} : List (String × β) → String → Option β
  | [], _ => none
  | (k, v) :: rest, key => if k = key then some v else aget rest key

/-- Association-list update (Python `dict[k] = v`): replaces the value in
place if the key is present, else appends — exactly CPython's
insertion-order semantics. -/
def aset {β : Type} : List (String × β) → String → β → List (String × β)
  | [], key, v => [(key, v)]
  | (k, w) :: rest, key, v =>
    if k = key then (k, v) :: rest else (k, w) :: aset rest key v

/-- Python `max` on a nonempty list of rationals (`0` is never reached:
every call site guards nonemptiness). -/
def pyMax : List ℚ → ℚ
  | [] => 0
  | x :: xs => xs.foldl max x

/-- Python `min` on a nonempty list of rationals. -/
def pyMin : List ℚ → ℚ
  | [] => 0
  | x :: xs => xs.foldl min x

/-- Stable insertion of `x` into a descending-sorted list: `x` goes before
the first element whose key is `≤` its own, which is exactly where
CPython's stable `sorted(···, reverse=True)` leaves it relative to equals
that occurred later in the input. -/
def insertDescBy {α : Type} (key : α → ℚ) (x : α) : List α → List α
  | [] => [x]
  | y :: ys => if key x ≥ key y then x :: y :: ys else y :: insertDescBy key x ys

/-- Stable descending sort by `key`, agreeing with Python's
`sorted(l, key=key, reverse=True)`. -/
def sortDescBy {α : Type} (key : α → ℚ) : List α → List α
  | [] => []
  | x :: xs => insertDescBy key x (sortDescBy key xs)

/-- `sorted(values, reverse=True)` for plain rationals. -/
def sortDesc (l : List ℚ) : List ℚ :=
  sortDescBy id l

/-- Stable insertion into an ascending list of naturals paired with data
(used to restore document order of selected summary sentences). -/
def insertAscBy {α : Type} (key : α → Nat) (x : α) : List α → List α
  | [] => [x]
  | y :: ys => if key x ≤ key y then x :: y :: ys else y :: insertAscBy key x ys

/-- Stable ascending sort by a natural-number key. -/
def sortAscBy {α : Type} (key : α → Nat) : List α → List α
  | [] => []
  | x :: xs => insertAscBy key x (sortAscBy key xs)

/-! ## Fixed configuration data

Transcribed verbatim from `SentinelNLP.__init__` and
`detect_entity_relationship_threats`. -/

/-- `self.threat_categories`: the fixed 7-category taxonomy with its term
lists, in dictionary (insertion) order. -/
def threat_categories : List (String × List String) :=
  [ ("voting_rights",
      ["voter suppression", "voter id", "voter purge", "registration restriction",
       "polling location", "early voting", "mail-in ballot", "absentee ballot",
       "ballot access", "voter disenfranchisement", "electoral college"]),
    ("civil_liberties",
      ["free speech", "freedom of assembly", "privacy rights", "surveillance",
       "due process", "search and seizure", "first amendment", "fourth amendment",
       "fifth amendment", "fourteenth amendment", "civil liberties", "racial profiling"]),
    ("edu_rights",
      ["book ban", "curriculum restriction", "education funding", "school privatization",
       "student rights", "public education", "education access", "school voucher",
       "academic freedom", "segregation", "education equity", "library access"]),
    ("executive_power",
      ["executive order", "emergency power", "war power", "regulatory authority",
       "agency discretion", "presidential directive", "executive privilege",
       "executive branch", "separation of powers", "checks and balances",
       "unitary executive", "signing statement"]),
    ("transparency",
      ["freedom of information", "government transparency", "open records",
       "public disclosure", "whistleblower", "classified information",
       "state secrets", "sunshine law", "open meeting", "records retention",
       "media access", "press freedom"]),
    ("immigration",
      ["detention", "deportation", "asylum", "refugee", "border enforcement",
       "immigration enforcement", "sanctuary", "birthright citizenship",
       "family separation", "migrant rights", "immigration court", "visa restriction"]),
    ("anti_democratic",
      ["restrict voting", "gerrymandering", "purge voter", "voter id requirement",
       "polling place closure", "election interference", "electoral integrity",
       "ballot harvesting", "cancel election", "postpone election", "delay election",
       "election certification", "electoral certification", "election challenge",
       "overturn election", "emergency powers", "presidential immunity",
       "executive privilege", "martial law", "insurrection act", "suspend constitution",
       "constitutional convention", "term limits repeal", "impeachment restriction",
       "judicial independence", "court packing", "court reform", "media censorship",
       "freedom of press", "press credentials", "press access", "legislative override",
       "state legislature", "independent commission", "election commission",
       "federal overreach", "states rights", "legislative immunity"]) ]

/-- The key set of the taxonomy, in order. -/
def categoryNames : List String :=
  threat_categories.map Prod.fst

/-- `self.anti_democratic_patterns`: the fixed regex pattern library, as the
raw pattern strings. -/
def anti_democratic_patterns : List String :=
  [ "restrict(?:ing|s|ed)?\\s+(?:voting|ballot|election)",
    "remov(?:e|ing|ed)\\s+(?:voters?|names)\\s+(?:from|off)\\s+(?:rolls?|registration)",
    "(?:close|reduce|limit|restrict)\\s+polling\\s+(?:stations?|places?|locations?)",
    "voter\\s+identification",
    "strict(?:er)?\\s+voter\\s+id",
    "delay(?:ing|ed)?\\s+(?:the\\s+)?election",
    "postpon(?:e|ing|ed)\\s+(?:the\\s+)?election",
    "cancel(?:ing|ed|lation of)?\\s+(?:the\\s+)?election",
    "(?:reject|challeng(?:e|ing)|contest(?:ing|ed)?|invalidat(?:e|ing|ed)?)\\s+(?:election|electoral)\\s+results",
    "(?:refus(?:e|ing|al)|declin(?:e|ing)|reject(?:ing|ed)?)\\s+to\\s+certify",
    "expand(?:ing|ed)?\\s+(?:presidential|executive)\\s+powers",
    "emergency\\s+powers",
    "(?:invok(?:e|ing)|implement(?:ing|ed)?)\\s+(?:the\\s+)?martial\\s+law",
    "suspend(?:ing|ed)?\\s+(?:the\\s+)?constitution",
    "limit(?:ing|ed|s)?\\s+(?:judicial|court)\\s+review",
    "pack(?:ing)?\\s+(?:the\\s+)?(?:court|supreme court)",
    "restrict(?:ing|s|ed)?\\s+(?:press|media|journalist)\\s+access",
    "(?:censor(?:ing|ed|ship)?|restrict(?:ing|s|ed)?)\\s+(?:the\\s+)?(?:press|media|news)",
    "(?:classify|seal|restrict)\\s+(?:government|public)\\s+(?:documents|records|information)",
    "(?:bypass(?:ing|ed)?|circumvent(?:ing|ed)?)\\s+(?:legislative|congressional)\\s+(?:approval|process|oversight)",
    "limit(?:ing|s|ed)?\\s+(?:legislative|congressional)\\s+oversight",
    "override\\s+(?:legislative|congressional)\\s+(?:authority|power)" ]

/-- The human-readable key `detect_anti_democratic_patterns` derives from a
pattern string:
`pattern.replace(r'\s+', ' ').replace(r'(?:', '').replace(')?', '').replace('|', '/')`. -/
def patternKey (p : String) : String :=
  pyReplace (pyReplace (pyReplace (pyReplace p "\\s+" " ") "(?:" "") ")?" "") "|" "/"

/-- The preset entity-type keys of `extract_entities`, in dictionary order. -/
def entityKeys : List String :=
  ["PERSON", "ORG", "GPE", "LAW_TERM", "USC_CITATION",
   "GOV_AGENCY", "LAW", "DATE", "NORP", "EVENT"]

/-- `voting_keywords` of `detect_entity_relationship_threats`. -/
def voting_keywords : List String :=
  ["vote", "voting", "ballot", "election", "poll", "polling", "voter", "registration"]

/-- `voting_verbs` of `detect_entity_relationship_threats`. -/
def voting_verbs : List String :=
  ["restrict", "limit", "reduce", "eliminate", "curtail", "constrain",
   "obstruct", "impede", "block"]

/-- `civil_liberty_keywords` of `detect_entity_relationship_threats`. -/
def civil_liberty_keywords : List String :=
  ["speech", "assembly", "protest", "privacy", "press", "religion",
   "search", "seizure", "due process", "rights"]

/-! ## Data model -/

/-- One `EntityRelationship` dictionary as built by
`detect_entity_relationship_threats` (`{"type": …, "agency"/"law": …,
"sentence": …, "threat_score": …}`). -/
structure Rel where
  rtype : String
  entity : String
  sentence : String
  threat_score : ℚ
deriving DecidableEq, Repr

/-- The values a document field can hold: input text fields and every kind
of analysis result `analyze_document` stores. -/
inductive Value where
  | s (v : String)
  | q (v : ℚ)
  | ents (v : List (String × List String))
  | catMap (v : List (String × ℚ))
  | patMap (v : List (String × ℚ))
  | rels (v : List Rel)
deriving DecidableEq, Repr

/-- A Python document dictionary: an insertion-ordered association of field
names to values. -/
def Document := List (String × Value)

instance : DecidableEq Document := by
  unfold Document; infer_instance

/-- Python truthiness of a field value (`if document[field]:`). -/
def truthy : Value → Bool
  | .s v => v ≠ ""
  | .q v => v ≠ 0
  | .ents v => v ≠ []
  | .catMap v => v ≠ []
  | .patMap v => v ≠ []
  | .rels v => v ≠ []

/-- The field value when present and a string. -/
def getStr (d : Document) (k : String) : Option String :=
  match aget d k with
  | some (.s v) => some v
  | _ => none

/-- A sentence as produced by the spaCy sentencizer: its raw text and the
number of entity spans it contains (`sentence.ents`). -/
structure SpacySent where
  text : String
  nEnts : Nat
deriving DecidableEq, Repr

/-- The two logging severities `analyze_document` itself can emit: the
empty-text warning (line 643) and the transformer-failure error (line 679). -/
inductive LogLevel where
  | warning
  | error
deriving DecidableEq, Repr

/-- The external capabilities the pipeline consumes, abstracted: the spaCy
model (availability, entity recognition, document/category cosine
similarity, sentence segmentation), the `re` engine applied to the fixed
pattern data (match counts for the anti-democratic patterns, group tuples
for the bill-number and Federal-Register regexes), the optional
transformer classifier (`none` models the classifier call raising), and
the wall clock. -/
structure Caps where
  nlpAvailable : Bool
  docEnts : String → List (String × String)
  simOf : String → String → ℚ
  sents : String → List SpacySent
  reCount : String → String → Nat
  billMatches : String → List (String × String)
  frMatches : String → List (String × String)
  hasTransformer : Bool
  classifyChunks : String → Option (List (String × ℚ))
  now : String

/-! ## Text Normalizer (`extract_text_field`, `preprocess_text`) -/

/-- The cleaning chain of `preprocess_text` on a string:
lowercase, strip URLs, collapse whitespace, strip. -/
def cleanText (t : String) : String :=
  pyStrip ⟨collapseWsL (removeUrlsL (pyLower t).data false) false⟩

/-- `preprocess_text` restricted to a string argument
(`if not text: return ""`, then the cleaning chain). -/
def preprocess_str (t : String) : String :=
  if t = "" then "" else cleanText t

/-- `SentinelNLP.preprocess_text`: non-strings and empty strings map to
`""`, strings are cleaned. -/
def preprocess_text : Value → String
  | .s t => preprocess_str t
  | _ => ""

/-- `SentinelNLP.extract_text_field`.  The `federal_register` and
`congress` branches join the named fields that are present (in the source
those fields are strings whenever present; a non-string there would make
Python's `' '.join` raise, which is outside this model). -/
def extract_text_field (d : Document) : Value :=
  let sourceType := (getStr d "source_type").getD ""
  if sourceType = "federal_register" then
    .s (" ".intercalate ([getStr d "title", getStr d "abstract"].filterMap id))
  else if sourceType = "congress" then
    .s (" ".intercalate
      ([getStr d "title", getStr d "latest_action",
        (getStr d "search_term").map
          (fun v => "This document matched the search term: " ++ v)].filterMap id))
  else
    match ["text", "content", "body", "description", "summary"].find?
        (fun f => match aget d f with
          | some v => truthy v
          | none => false) with
    | some f => (aget d f).getD (.s "")
    | none =>
      .s (" ".intercalate (d.filterMap (fun kv =>
        match kv.2 with
        | .s v => if v.length > 20 then some v else none
        | _ => none)))

/-! ## Entity Extractor (`extract_entities`) -/

/-- Case-insensitive deduplicating append:
`if ent.text.lower() not in [e.lower() for e in entities[label]]: append`. -/
def dedupAddCI (l : List String) (x : String) : List String :=
  if l.any (fun e => pyLower e = pyLower x) then l else l ++ [x]

/-- `SentinelNLP.extract_entities`: the preset ten-key dictionary is filled
from the recognizer's entity spans over the first 100000 characters
(deduplicated case-insensitively, unknown labels dropped), then the
regex-derived `BILL` and `FR_CITATION` keys are appended and filled from
the bill-number and Federal-Register pattern matches over the full text. -/
def extract_entities (c : Caps) (text : String) : List (String × List String) :=
  if text = "" ∨ ¬ c.nlpAvailable then []
  else
    let base := entityKeys.map (fun k => (k, ([] : List String)))
    let withEnts := (c.docEnts (text.take 100000)).foldl (fun acc lt =>
      match aget acc lt.1 with
      | some cur => aset acc lt.1 (dedupAddCI cur lt.2)
      | none => acc) base
    let withBill := (c.billMatches text).foldl (fun acc bt =>
      let billId := pyStrip (bt.1 ++ " " ++ bt.2)
      let cur := (aget acc "BILL").getD []
      aset acc "BILL" (dedupAddCI cur billId)) (withEnts ++ [("BILL", [])])
    let withFr := (c.frMatches text).foldl (fun acc vp =>
      let frCitation := vp.1 ++ " Fed. Reg. " ++ vp.2
      let cur := (aget acc "FR_CITATION").getD []
      aset acc "FR_CITATION"
        (if cur.contains frCitation then cur else cur ++ [frCitation]))
      (withBill ++ [("FR_CITATION", [])])
    withFr

/-! ## Category Similarity Scorer
(`analyze_threat_categories`, `keyword_based_scoring`) -/

/-- `SentinelNLP.analyze_threat_categories`: cosine similarity of the
document embedding against each precomputed category embedding
(abstracted as `c.simOf`), then min-max normalization across categories —
unless all similarities are equal, in which case the raw similarities are
returned unnormalized. -/
def analyze_threat_categories (c : Caps) (text : String) : List (String × ℚ) :=
  if text = "" ∨ ¬ c.nlpAvailable then []
  else
    let similarities := categoryNames.map (fun cat => (cat, c.simOf text cat))
    let vals := similarities.map Prod.snd
    let minSim := pyMin vals
    let maxSim := pyMax vals
    if maxSim > minSim then
      similarities.map (fun cs => (cs.1, (cs.2 - minSim) / (maxSim - minSim)))
    else
      similarities

/-- `SentinelNLP.keyword_based_scoring`: per category, the number of
(non-overlapping) occurrences of its terms in the preprocessed text,
divided by the term-list size and capped at `1.0`. -/
def keyword_based_scoring (text : String) : List (String × ℚ) :=
  if text = "" then []
  else
    let t := preprocess_str text
    threat_categories.map (fun ck =>
      let count := (ck.2.map (fun keyword => pyCount t (pyLower keyword))).sum
      (ck.1, min (1 : ℚ) ((count : ℚ) / (ck.2.length : ℚ))))

/-! ## Pattern & Relationship Detector -/

/-- `SentinelNLP.detect_anti_democratic_patterns`: the text is
preprocessed again, then every library pattern with at least one
(case-insensitive) regex match contributes the fixed weight `0.9` under
its human-readable key. -/
def detect_anti_democratic_patterns (c : Caps) (text : String) : List (String × ℚ) :=
  if text = "" then []
  else
    let t := preprocess_str text
    anti_democratic_patterns.foldl (fun acc p =>
      if 0 < c.reCount p t then aset acc (patternKey p) (9/10 : ℚ) else acc) []

/-- `set(...)` over a list of strings, as the deduplicated list in first
occurrence order (CPython set iteration order is arbitrary; no property
proved below depends on the order chosen here). -/
def dedupList (l : List String) : List String :=
  l.foldl (fun acc x => if acc.contains x then acc else acc ++ [x]) []

/-- `SentinelNLP.detect_entity_relationship_threats`: per sentence, a
government agency co-occurring with a voting keyword and a restrictive
verb emits an `agency_voting_restriction` relationship (score 0.8) per
agency; a legal term co-occurring with a civil-liberty keyword and a
restrictive verb emits a `law_civil_liberty_restriction` relationship
(score 0.75) per term. -/
def detect_entity_relationship_threats (c : Caps) (text : String)
    (entities : List (String × List String)) : List Rel :=
  if text = "" ∨ ¬ c.nlpAvailable ∨ entities = [] then []
  else
    let sentTexts := (c.sents (text.take 100000)).map SpacySent.text
    let govAgencies := dedupList ((aget entities "GOV_AGENCY").getD [])
    let laws := dedupList (((aget entities "LAW_TERM").getD []) ++
      ((aget entities "LAW").getD []) ++ ((aget entities "USC_CITATION").getD []))
    let votingRels := (sentTexts.map (fun st =>
      let sentText := pyLower st
      let agenciesInSent := govAgencies.filter (fun a => hasSubstr (pyLower a) sentText)
      if agenciesInSent = [] then []
      else if voting_keywords.any (fun k => hasSubstr k sentText) &&
              voting_verbs.any (fun v => hasSubstr v sentText) then
        agenciesInSent.map (fun a =>
          Rel.mk "agency_voting_restriction" a st (4/5 : ℚ))
      else [])).flatten
    let lawRels := (sentTexts.map (fun st =>
      let sentText := pyLower st
      let lawsInSent := laws.filter (fun l => hasSubstr (pyLower l) sentText)
      if lawsInSent = [] then []
      else if civil_liberty_keywords.any (fun k => hasSubstr k sentText) &&
              voting_verbs.any (fun v => hasSubstr v sentText) then
        lawsInSent.map (fun l =>
          Rel.mk "law_civil_liberty_restriction" l st (3/4 : ℚ))
      else [])).flatten
    votingRels ++ lawRels

/-! ## Summarizer (`generate_summary`) -/

/-- The per-sentence score of `generate_summary` (sentence at position `i`
of the split): position bonus `(3-i)*0.2` for the first three sentences,
`0.1` per entity span in the sentence, `0.15` for each category whose term
list has a member occurring in the sentence (the `break` in the source
leaves the inner term loop only, so each category contributes at most
once, but several categories can contribute), and `0.2` if any
anti-democratic pattern matches the sentence (the `break` there leaves the
whole pattern loop). -/
def score_sentence (c : Caps) (i : Nat) (s : SpacySent) : ℚ :=
  (if i < 3 then ((3 - i : Nat) : ℚ) * (2/10) else 0)
  + (s.nEnts : ℚ) * (1/10)
  + (15/100) * ((threat_categories.filter (fun ck =>
      ck.2.any (fun term => hasSubstr (pyLower term) (pyLower s.text)))).length : ℚ)
  + (if anti_democratic_patterns.any (fun p => 0 < c.reCount p s.text) then 2/10 else 0)

/-- `summary[:max_length] + "..." if len(summary) > max_length else summary`. -/
def truncateEllipsis (summary : String) (maxLength : Nat) : String :=
  if summary.length > maxLength then summary.take maxLength ++ "..." else summary

/-- `SentinelNLP.generate_summary` (default `max_length=150`): sentences
under 5 whitespace tokens are discarded; the rest are scored by
`score_sentence`; the top three by score (Python's stable descending sort)
are restored to document order, joined with single spaces, and truncated
with an ellipsis when over `maxLength` characters.  Without sentences the
raw text is truncated; without the model the first three `'.'`-split
pieces are used. -/
def generate_summary (c : Caps) (text : String) (maxLength : Nat) : String :=
  if text = "" then ""
  else if c.nlpAvailable then
    let sentences := c.sents (text.take 50000)
    if sentences = [] then truncateEllipsis text maxLength
    else
      let sentenceScores := (sentences.enum.filterMap (fun si =>
        if (splitWs si.2.text).length < 5 then none
        else some (si.1, si.2, score_sentence c si.1 si.2)))
      let topSentences := (sortDescBy (fun x => x.2.2) sentenceScores).take 3
      let ordered := sortAscBy (fun x => x.1) topSentences
      let summary := " ".intercalate (ordered.map (fun x => x.2.1.text))
      truncateEllipsis summary maxLength
  else
    let sentences := splitSepL '.' text.data []
    let summary := ".".intercalate (sentences.take 3) ++ "."
    truncateEllipsis summary maxLength

/-! ## Score Aggregator (`calculate_threat_score`) and transformer merge -/

/-- `SentinelNLP.calculate_threat_score`: `0.0` for an empty map, else the
mean of the first three values of the descending-sorted value list. -/
def calculate_threat_score (category_scores : List (String × ℚ)) : ℚ :=
  if category_scores = [] then 0
  else
    let topScores := (sortDesc (category_scores.map Prod.snd)).take 3
    if topScores = [] then 0 else topScores.sum / (topScores.length : ℚ)

/-- The transformer-merge loop of `analyze_document` (lines 668–677): each
transformer label is lowercased with spaces replaced by underscores;
matching keys are averaged with the existing score, new keys are added. -/
def merge_transformer (cats : List (String × ℚ)) (tr : List (String × ℚ)) :
    List (String × ℚ) :=
  tr.foldl (fun acc cs =>
    let categoryKey := pyReplace (pyLower cs.1) " " "_"
    match aget acc categoryKey with
    | some old => aset acc categoryKey ((old + cs.2) / 2)
    | none => acc ++ [(categoryKey, cs.2)]) cats

/-! ## The per-document pipeline (`analyze_document`) -/

/-- `SentinelNLP.analyze_document`.  Returns the document dictionary as the
caller sees it after the call (CPython mutates the argument in place and
returns the same object) together with the log records the method itself
emits: the empty-text warning, or the error logged when the transformer
classification raises. -/
def analyze_document (c : Caps) (document : Document) : Document × List LogLevel :=
  let text := preprocess_text (extract_text_field document)
  if text = "" then (document, [.warning])
  else
    let d1 := aset document "processed_text" (.s text)
    let entities := extract_entities c text
    let d2 := aset d1 "entities" (.ents entities)
    let cats0 := if c.nlpAvailable then analyze_threat_categories c text
                 else keyword_based_scoring text
    let d3 := aset d2 "threat_categories" (.catMap cats0)
    let step4 : Document × List (String × ℚ) × List LogLevel :=
      if c.hasTransformer then
        match c.classifyChunks text with
        | some transformerResults =>
          let d := aset d3 "transformer_classifications" (.catMap transformerResults)
          if transformerResults = [] then (d, cats0, [])
          else
            let merged := merge_transformer cats0 transformerResults
            (aset d "threat_categories" (.catMap merged), merged, [])
        | none => (d3, cats0, [.error])
      else (d3, cats0, [])
    let d4 := step4.1
    let cats := step4.2.1
    let logs := step4.2.2
    let antiDemocraticMatches := detect_anti_democratic_patterns c text
    let d5 := aset d4 "anti_democratic_matches" (.patMap antiDemocraticMatches)
    let antiDemocraticScore :=
      if antiDemocraticMatches = [] then 0
      else (antiDemocraticMatches.map Prod.snd).sum /
        ((antiDemocraticMatches.map Prod.snd).length : ℚ)
    let d6 := aset d5 "anti_democratic_score" (.q antiDemocraticScore)
    let entityRelationships := detect_entity_relationship_threats c text entities
    let d7 := aset d6 "entity_relationships" (.rels entityRelationships)
    let relationshipScores := entityRelationships.map Rel.threat_score
    let relationshipThreatScore :=
      if relationshipScores = [] then 0 else pyMax relationshipScores
    let d8 := aset d7 "relationship_threat_score" (.q relationshipThreatScore)
    let categoryThreatScore := calculate_threat_score cats
    let d9 := aset d8 "threat_score"
      (.q ((4/10) * categoryThreatScore + (4/10) * antiDemocraticScore +
        (2/10) * relationshipThreatScore))
    let d10 := aset d9 "summary" (.s (generate_summary c text 150))
    (aset d10 "analysis_timestamp" (.s c.now), logs)

/-! ## Batch Orchestrator (`batch_process` of `memory_optimization.py`) -/

/-- One observable step of `batch_process`: processing a batch of a given
size, or the explicit `gc.collect()` pass that follows a batch when
`force_gc` is set. -/
inductive BatchEvent where
  | batch (size : Nat)
  | gcPass
deriving DecidableEq, Repr

/-- `memory_optimization.batch_process`: slices of `batchSize` items are
handed to `processFunc` in order, results are concatenated, and (with
`force_gc`, the default) one garbage-collection pass runs after each
batch.  The trace of batch/gc events is returned alongside the results
(`batchSize = 0` would make Python's `range` raise; it returns nothing
here). -/
def batch_process {α β : Type} (items : List α) (processFunc : List α → List β)
    (batchSize : Nat) (forceGc : Bool) : List β × List BatchEvent :=
  match items with
  | [] => ([], [])
  | a :: as =>
    if batchSize = 0 then ([], [])
    else
      let batch := (a :: as).take batchSize
      let rest := batch_process ((a :: as).drop batchSize) processFunc batchSize forceGc
      (processFunc batch ++ rest.1,
       .batch batch.length :: (if forceGc then [.gcPass] else []) ++ rest.2)
termination_by items.length
decreasing_by
  simp only [List.length_drop, List.length_cons]
  omega

/-! ## Named intermediate values of `analyze_document`

These replicate the local variables of `analyze_document` as top-level
definitions, so that theorems can speak about the stored fields. -/

/-- The derived text of a document (`extract_text_field` then
`preprocess_text`). -/
def derivedText (d : Document) : String :=
  preprocess_text (extract_text_field d)

/-- The final `threat_categories` value: the cheap-path map, merged with
the transformer results when the classifier is present, returns a
non-empty map and does not raise. -/
def pipelineCats (c : Caps) (t : String) : List (String × ℚ) :=
  let cats0 := if c.nlpAvailable then analyze_threat_categories c t
               else keyword_based_scoring t
  if c.hasTransformer then
    match c.classifyChunks t with
    | some tr => if tr = [] then cats0 else merge_transformer cats0 tr
    | none => cats0
  else cats0

/-- The stored `anti_democratic_score`: mean of the matched pattern
weights, `0` when none fire. -/
def pipelineAdScore (c : Caps) (t : String) : ℚ :=
  let m := detect_anti_democratic_patterns c t
  if m = [] then 0 else (m.map Prod.snd).sum / ((m.map Prod.snd).length : ℚ)

/-- The relationships computed for a document's derived text. -/
def pipelineRels (c : Caps) (t : String) : List Rel :=
  detect_entity_relationship_threats c t (extract_entities c t)

/-- The stored `relationship_threat_score`: maximum relationship score,
`0` when none were emitted. -/
def pipelineRelScore (c : Caps) (t : String) : ℚ :=
  let scores := (pipelineRels c t).map Rel.threat_score
  if scores = [] then 0 else pyMax scores

/-- The stored overall `threat_score`. -/
def pipelineThreatScore (c : Caps) (t : String) : ℚ :=
  (4/10) * calculate_threat_score (pipelineCats c t) +
  (4/10) * pipelineAdScore c t + (2/10) * pipelineRelScore c t

/-- The document state after the first four stages (processed text,
entities, cheap category scores, transformer augmentation). -/
def preDoc (c : Caps) (d : Document) : Document :=
  let t := derivedText d
  let d3 := aset (aset (aset d "processed_text" (.s t))
    "entities" (.ents (extract_entities c t)))
    "threat_categories" (.catMap (if c.nlpAvailable then analyze_threat_categories c t
      else keyword_based_scoring t))
  if c.hasTransformer then
    match c.classifyChunks t with
    | some tr =>
      let dt := aset d3 "transformer_classifications" (.catMap tr)
      if tr = [] then dt
      else aset dt "threat_categories" (.catMap (pipelineCats c t))
    | none => d3
  else d3

/-- The log records `analyze_document` emits on the non-empty-text path. -/
def pipelineLogs (c : Caps) (t : String) : List LogLevel :=
  if c.hasTransformer then
    match c.classifyChunks t with
    | some _ => []
    | none => [.error]
  else []

/-- The field names `analyze_document` writes into the caller's record on
the non-empty-text path. -/
def analysisKeys : List String :=
  ["processed_text", "entities", "threat_categories", "transformer_classifications",
   "anti_democratic_matches", "anti_democratic_score", "entity_relationships",
   "relationship_threat_score", "threat_score", "summary", "analysis_timestamp"]

/-- The category threat score as the spec words it: the arithmetic mean of
the top 3 values of the `CategoryScoreMap` (mean of all values if fewer
than 3 categories, 0 if the map is empty). -/
def top_three_mean (vals : List ℚ) : ℚ :=
  if vals = [] then 0
  else
    let top := (sortDesc vals).take 3
    top.sum / (top.length : ℚ)

/-- `doc.get('threat_score', 0)`: how the CLI driver (and the batch
pre-check) read an analysis record's overall score, defaulting to 0 when
the field is absent. -/
def getScoreDefault (d : Document) : ℚ :=
  match aget d "threat_score" with
  | some (.q v) => v
  | _ => 0

/-! ## Claim-side definitions (written from the spec's words, for
refinement comparisons) -/

/-- The relationship detector as claim C4 words it, with the type tags
spelled as the code spells them (`agency_voting_restriction`,
`law_civil_liberty_restriction`): every sentence containing at least one
extracted government-agency entity together with at least one voting
keyword and at least one restrictive verb yields exactly one relationship
per matching agency at score 0.8; symmetrically, legal-term entities with
civil-liberty keywords and the same verb list yield one relationship per
matching term at score 0.75. -/
def relationship_spec (c : Caps) (text : String)
    (entities : List (String × List String)) : List Rel :=
  if text = "" ∨ ¬ c.nlpAvailable ∨ entities = [] then []
  else
    let sentTexts := (c.sents (text.take 100000)).map SpacySent.text
    let govAgencies := dedupList ((aget entities "GOV_AGENCY").getD [])
    let laws := dedupList (((aget entities "LAW_TERM").getD []) ++
      ((aget entities "LAW").getD []) ++ ((aget entities "USC_CITATION").getD []))
    (sentTexts.map (fun st =>
      let sentText := pyLower st
      if voting_keywords.any (fun k => hasSubstr k sentText) &&
         voting_verbs.any (fun v => hasSubstr v sentText) then
        (govAgencies.filter (fun a => hasSubstr (pyLower a) sentText)).map (fun a =>
          Rel.mk "agency_voting_restriction" a st (4/5 : ℚ))
      else [])).flatten ++
    (sentTexts.map (fun st =>
      let sentText := pyLower st
      if civil_liberty_keywords.any (fun k => hasSubstr k sentText) &&
         voting_verbs.any (fun v => hasSubstr v sentText) then
        (laws.filter (fun l => hasSubstr (pyLower l) sentText)).map (fun l =>
          Rel.mk "law_civil_liberty_restriction" l st (3/4 : ℚ))
      else [])).flatten

/-- The per-sentence summary score exactly as claim C9 words it: position
bonus 0.6/0.4/0.2 for the first three sentences, 0.1 per contained entity,
**0.15 if the sentence contains any category term (counted once)**, 0.2
for an anti-democratic pattern match (counted once). -/
def claim_score_sentence (c : Caps) (i : Nat) (s : SpacySent) : ℚ :=
  (if i = 0 then 6/10 else if i = 1 then 4/10 else if i = 2 then 2/10 else 0)
  + (s.nEnts : ℚ) * (1/10)
  + (if threat_categories.any (fun ck =>
      ck.2.any (fun term => hasSubstr (pyLower term) (pyLower s.text))) then
      (15/100 : ℚ) else 0)
  + (if anti_democratic_patterns.any (fun p => 0 < c.reCount p s.text) then
      (2/10 : ℚ) else 0)

/-- The per-sentence summary score of claim C9 with the amendment the code
forces: the 0.15 category bonus is granted **once per category** whose
term list has a member occurring in the sentence. -/
def amended_score_sentence (c : Caps) (i : Nat) (s : SpacySent) : ℚ :=
  (if i = 0 then 6/10 else if i = 1 then 4/10 else if i = 2 then 2/10 else 0)
  + (s.nEnts : ℚ) * (1/10)
  + (15/100 : ℚ) * ((threat_categories.filter (fun ck =>
      ck.2.any (fun term => hasSubstr (pyLower term) (pyLower s.text)))).length : ℚ)
  + (if anti_democratic_patterns.any (fun p => 0 < c.reCount p s.text) then
      (2/10 : ℚ) else 0)

/-- The summarizer as claim C9 describes it, parameterized by the
per-sentence scoring function: discard sentences under 5 tokens, score the
rest, select the top 3 by score, restore original document order, join
with single spaces, truncate with an ellipsis marker beyond the maximum
length.  (The empty-sentence-list and no-model fallbacks are those of the
source; the claim is about the main path.) -/
def claim_generate_summary (score : Caps → Nat → SpacySent → ℚ) (c : Caps)
    (text : String) (maxLength : Nat) : String :=
  if text = "" then ""
  else if c.nlpAvailable then
    let sentences := c.sents (text.take 50000)
    if sentences = [] then truncateEllipsis text maxLength
    else
      let kept := sentences.enum.filter (fun si => !(decide ((splitWs si.2.text).length < 5)))
      let scored := kept.map (fun si => (si.1, si.2, score c si.1 si.2))
      let top := (sortDescBy (fun x => x.2.2) scored).take 3
      let ordered := sortAscBy (fun x => x.1) top
      truncateEllipsis (" ".intercalate (ordered.map (fun x => x.2.1.text))) maxLength
  else
    let sentences := splitSepL '.' text.data []
    truncateEllipsis (".".intercalate (sentences.take 3) ++ ".") maxLength

/-! ## Concrete capability records and documents for witnesses and
counterexamples -/

/-- No model, no transformer, all oracles empty. -/
def trivialCaps : Caps :=
  Caps.mk false (fun _ => []) (fun _ _ => 0) (fun _ => []) (fun _ _ => 0)
    (fun _ => []) (fun _ => []) false (fun _ => none) "2025-01-01T00:00:00"

/-- A one-field document with usable text. -/
def witnessDoc : Document :=
  [("text", Value.s "the quick brown fox jumps over the lazy dog near the river")]

/-- A document whose text field is the empty string. -/
def emptyTextDoc : Document :=
  [("text", Value.s "")]

/-- A model whose embedding yields the same negative cosine similarity
`-1/2` against every category prototype (realizable: a document vector
equally anti-aligned with all seven prototypes). -/
def negSimCaps : Caps :=
  Caps.mk true (fun _ => []) (fun _ _ => -(1/2 : ℚ)) (fun _ => []) (fun _ _ => 0)
    (fun _ => []) (fun _ => []) false (fun _ => none) "t"

/-- A model with distinct cosine similarities across categories. -/
def variedSimCaps : Caps :=
  Caps.mk true (fun _ => []) (fun _ cat => if cat = "voting_rights" then (1/2 : ℚ) else 0)
    (fun _ => []) (fun _ _ => 0) (fun _ => []) (fun _ => []) false (fun _ => none) "t"

/-- A regex engine reporting exactly one match of every pattern. -/
def onesCaps : Caps :=
  Caps.mk false (fun _ => []) (fun _ _ => 0) (fun _ => []) (fun _ _ => 1)
    (fun _ => []) (fun _ => []) false (fun _ => none) "t"

/-- A regex engine reporting two matches of every pattern. -/
def twosCaps : Caps :=
  Caps.mk false (fun _ => []) (fun _ _ => 0) (fun _ => []) (fun _ _ => 2)
    (fun _ => []) (fun _ => []) false (fun _ => none) "t"

/-- A sentencizer segmenting one agency/voting/restriction sentence; the
regex groups report nothing. -/
def relCexCaps : Caps :=
  Caps.mk true (fun _ => []) (fun _ _ => 0)
    (fun _ => [SpacySent.mk "The FBI will restrict voting access." 0])
    (fun _ _ => 0) (fun _ => []) (fun _ => []) false (fun _ => none) "t"

/-- An entity bag holding one government agency. -/
def relCexEntities : List (String × List String) :=
  [("GOV_AGENCY", ["FBI"])]

/-- The five-sentence text used to separate the two readings of the
summary scoring rule. -/
def summaryCexText : String :=
  "Alpha beta gamma delta epsilon. Zeta eta theta iota kappa. Mu nu xi omicron pi. Concerns about free speech and voter suppression continue. They will suspend the constitution soon now."

/-- Sentencizer for `summaryCexText` (no entity spans), with a regex
engine matching the `suspend … constitution` pattern on the last sentence
only — exactly what `re` reports on these strings. -/
def summaryCexCaps : Caps :=
  Caps.mk true (fun _ => []) (fun _ _ => 0)
    (fun _ =>
      [SpacySent.mk "Alpha beta gamma delta epsilon." 0,
       SpacySent.mk "Zeta eta theta iota kappa." 0,
       SpacySent.mk "Mu nu xi omicron pi." 0,
       SpacySent.mk "Concerns about free speech and voter suppression continue." 0,
       SpacySent.mk "They will suspend the constitution soon now." 0])
    (fun p s =>
      if p = "suspend(?:ing|ed)?\\s+(?:the\\s+)?constitution" &&
         s = "They will suspend the constitution soon now." then 1 else 0)
    (fun _ => []) (fun _ => []) false (fun _ => none) "t"

/-! ## Association-list lemmas -/

theorem aget_aset_self {β : Type} (d : List (String × β)) (k : String) (v : β) :
    aget (aset d k v) k = some v := by
  induction d with
  | nil => simp [aget, aset]
  | cons kv rest ih =>
    obtain ⟨k', w⟩ := kv
    by_cases h : k' = k <;> simp [aget, aset, h, ih]

theorem aget_aset_ne {β : Type} (d : List (String × β)) (k key : String) (v : β)
    (h : k ≠ key) : aget (aset d k v) key = aget d key := by
  induction d with
  | nil => simp [aget, aset, h]
  | cons kv rest ih =>
    obtain ⟨k', w⟩ := kv
    by_cases h' : k' = k
    · subst h'; simp [aget, aset, h]
    · simp only [aset, if_neg h']
      by_cases h'' : k' = key <;> simp [aget, h'', ih]

/-- `analyze_document` on a document with non-empty derived text is the
input with the analysis fields written in source order, paired with the
transformer logs. -/
theorem analyze_document_unfold (c : Caps) (d : Document)
    (h : derivedText d ≠ "") :
    analyze_document c d =
      (aset (aset (aset (aset (aset (aset (aset (preDoc c d)
        "anti_democratic_matches"
          (Value.patMap (detect_anti_democratic_patterns c (derivedText d))))
        "anti_democratic_score" (Value.q (pipelineAdScore c (derivedText d))))
        "entity_relationships" (Value.rels (pipelineRels c (derivedText d))))
        "relationship_threat_score" (Value.q (pipelineRelScore c (derivedText d))))
        "threat_score" (Value.q (pipelineThreatScore c (derivedText d))))
        "summary" (Value.s (generate_summary c (derivedText d) 150)))
        "analysis_timestamp" (Value.s c.now),
       pipelineLogs c (derivedText d)) := by
  rw [analyze_document]
  rw [if_neg (by simpa [derivedText] using h)]
  simp only [preDoc, pipelineCats, pipelineAdScore, pipelineRels, pipelineRelScore,
    pipelineThreatScore, pipelineLogs, derivedText]
  by_cases htr : c.hasTransformer
  · simp only [htr, if_true]
    cases hcl : c.classifyChunks (preprocess_text (extract_text_field d)) with
    | none => simp
    | some tr =>
      by_cases he : tr = [] <;> simp [he]
  · simp [htr]

/-- The first four stages leave every field other than the four they write
unchanged. -/
theorem aget_preDoc (c : Caps) (d : Document) (k : String)
    (h1 : k ≠ "processed_text") (h2 : k ≠ "entities")
    (h3 : k ≠ "threat_categories") (h4 : k ≠ "transformer_classifications") :
    aget (preDoc c d) k = aget d k := by
  rw [preDoc]
  by_cases htr : c.hasTransformer
  · cases hcl : c.classifyChunks (derivedText d) with
    | none =>
      simp only [htr, hcl, if_true]
      simp only [aget_aset_ne _ _ _ _ (Ne.symm h1), aget_aset_ne _ _ _ _ (Ne.symm h2),
        aget_aset_ne _ _ _ _ (Ne.symm h3)]
    | some tr =>
      by_cases he : tr = [] <;>
        simp only [htr, hcl, he, if_true, if_false, reduceIte] <;>
        simp only [aget_aset_ne _ _ _ _ (Ne.symm h1), aget_aset_ne _ _ _ _ (Ne.symm h2),
          aget_aset_ne _ _ _ _ (Ne.symm h3), aget_aset_ne _ _ _ _ (Ne.symm h4)]
  · simp only [htr, Bool.false_eq_true, if_false]
    simp only [aget_aset_ne _ _ _ _ (Ne.symm h1), aget_aset_ne _ _ _ _ (Ne.symm h2),
      aget_aset_ne _ _ _ _ (Ne.symm h3)]

/-- The stored `threat_categories` value equals `pipelineCats`. -/
theorem aget_preDoc_cats (c : Caps) (d : Document) :
    aget (preDoc c d) "threat_categories" =
      some (.catMap (pipelineCats c (derivedText d))) := by
  rw [preDoc, pipelineCats]
  by_cases htr : c.hasTransformer
  · cases hcl : c.classifyChunks (derivedText d) with
    | none => simp only [htr, hcl, if_true, aget_aset_self]
    | some tr =>
      by_cases he : tr = [] <;>
        simp only [htr, hcl, he, if_true, if_false, reduceIte] <;>
        first
        | rw [aget_aset_self]
        | (rw [aget_aset_ne _ _ _ _ (by decide), aget_aset_self])
  · simp only [htr, Bool.false_eq_true, if_false, aget_aset_self]

/-- The stored `processed_text` value is the derived text. -/
theorem aget_preDoc_processed (c : Caps) (d : Document) :
    aget (preDoc c d) "processed_text" = some (.s (derivedText d)) := by
  rw [preDoc]
  have base : ∀ (v2 : Value) (v3 : Value),
      aget (aset (aset (aset d "processed_text" (.s (derivedText d)))
        "entities" v2) "threat_categories" v3) "processed_text" =
      some (.s (derivedText d)) := by
    intro v2 v3
    rw [aget_aset_ne _ _ _ _ (by decide), aget_aset_ne _ _ _ _ (by decide),
      aget_aset_self]
  by_cases htr : c.hasTransformer
  · cases hcl : c.classifyChunks (derivedText d) with
    | none => simp only [htr, hcl, if_true]; exact base _ _
    | some tr =>
      by_cases he : tr = [] <;>
        simp only [htr, hcl, he, if_true, if_false, reduceIte] <;>
        first
        | (rw [aget_aset_ne _ _ _ _ (by decide)]; exact base _ _)
        | (rw [aget_aset_ne _ _ _ _ (by decide), aget_aset_ne _ _ _ _ (by decide)]
           exact base _ _)
  · simp only [htr, Bool.false_eq_true, if_false]; exact base _ _

/-- Fields outside `analysisKeys` are never touched by `analyze_document`. -/
theorem aget_analyze_document_not_mem (c : Caps) (d : Document) (k : String)
    (hk : k ∉ analysisKeys) : aget (analyze_document c d).1 k = aget d k := by
  simp only [analysisKeys, List.mem_cons, List.not_mem_nil, or_false, not_or] at hk
  obtain ⟨h1, h2, h3, h4, h5, h6, h7, h8, h9, h10, h11⟩ := hk
  by_cases h : derivedText d = ""
  · rw [analyze_document, if_pos (by simpa [derivedText] using h)]
  · rw [analyze_document_unfold c d h]
    simp only
    rw [aget_aset_ne _ _ _ _ (Ne.symm h11), aget_aset_ne _ _ _ _ (Ne.symm h10),
      aget_aset_ne _ _ _ _ (Ne.symm h9), aget_aset_ne _ _ _ _ (Ne.symm h8),
      aget_aset_ne _ _ _ _ (Ne.symm h7), aget_aset_ne _ _ _ _ (Ne.symm h6),
      aget_aset_ne _ _ _ _ (Ne.symm h5)]
    exact aget_preDoc c d k h1 h2 h3 h4

/-- The stored `analysis_timestamp` on the non-empty-text path. -/
theorem aget_analyze_document_timestamp (c : Caps) (d : Document)
    (h : derivedText d ≠ "") :
    aget (analyze_document c d).1 "analysis_timestamp" = some (.s c.now) := by
  rw [analyze_document_unfold c d h]
  simp only
  rw [aget_aset_self]

/-- The stored `threat_categories` on the non-empty-text path. -/
theorem aget_analyze_document_cats (c : Caps) (d : Document)
    (h : derivedText d ≠ "") :
    aget (analyze_document c d).1 "threat_categories" =
      some (.catMap (pipelineCats c (derivedText d))) := by
  rw [analyze_document_unfold c d h]
  simp only
  rw [aget_aset_ne _ _ _ _ (by decide), aget_aset_ne _ _ _ _ (by decide),
    aget_aset_ne _ _ _ _ (by decide), aget_aset_ne _ _ _ _ (by decide),
    aget_aset_ne _ _ _ _ (by decide), aget_aset_ne _ _ _ _ (by decide),
    aget_aset_ne _ _ _ _ (by decide)]
  exact aget_preDoc_cats c d

/-- The stored `anti_democratic_matches` on the non-empty-text path. -/
theorem aget_analyze_document_adm (c : Caps) (d : Document)
    (h : derivedText d ≠ "") :
    aget (analyze_document c d).1 "anti_democratic_matches" =
      some (.patMap (detect_anti_democratic_patterns c (derivedText d))) := by
  rw [analyze_document_unfold c d h]
  simp only
  rw [aget_aset_ne _ _ _ _ (by decide), aget_aset_ne _ _ _ _ (by decide),
    aget_aset_ne _ _ _ _ (by decide), aget_aset_ne _ _ _ _ (by decide),
    aget_aset_ne _ _ _ _ (by decide), aget_aset_ne _ _ _ _ (by decide),
    aget_aset_self]

/-- The stored `anti_democratic_score` on the non-empty-text path. -/
theorem aget_analyze_document_adscore (c : Caps) (d : Document)
    (h : derivedText d ≠ "") :
    aget (analyze_document c d).1 "anti_democratic_score" =
      some (.q (pipelineAdScore c (derivedText d))) := by
  rw [analyze_document_unfold c d h]
  simp only
  rw [aget_aset_ne _ _ _ _ (by decide), aget_aset_ne _ _ _ _ (by decide),
    aget_aset_ne _ _ _ _ (by decide), aget_aset_ne _ _ _ _ (by decide),
    aget_aset_ne _ _ _ _ (by decide), aget_aset_self]

/-- The stored `entity_relationships` on the non-empty-text path. -/
theorem aget_analyze_document_rels (c : Caps) (d : Document)
    (h : derivedText d ≠ "") :
    aget (analyze_document c d).1 "entity_relationships" =
      some (.rels (pipelineRels c (derivedText d))) := by
  rw [analyze_document_unfold c d h]
  simp only
  rw [aget_aset_ne _ _ _ _ (by decide), aget_aset_ne _ _ _ _ (by decide),
    aget_aset_ne _ _ _ _ (by decide), aget_aset_ne _ _ _ _ (by decide),
    aget_aset_self]

/-- The stored `relationship_threat_score` on the non-empty-text path. -/
theorem aget_analyze_document_relscore (c : Caps) (d : Document)
    (h : derivedText d ≠ "") :
    aget (analyze_document c d).1 "relationship_threat_score" =
      some (.q (pipelineRelScore c (derivedText d))) := by
  rw [analyze_document_unfold c d h]
  simp only
  rw [aget_aset_ne _ _ _ _ (by decide), aget_aset_ne _ _ _ _ (by decide),
    aget_aset_ne _ _ _ _ (by decide), aget_aset_self]

/-- The stored overall `threat_score` on the non-empty-text path. -/
theorem aget_analyze_document_score (c : Caps) (d : Document)
    (h : derivedText d ≠ "") :
    aget (analyze_document c d).1 "threat_score" =
      some (.q (pipelineThreatScore c (derivedText d))) := by
  rw [analyze_document_unfold c d h]
  simp only
  rw [aget_aset_ne _ _ _ _ (by decide), aget_aset_ne _ _ _ _ (by decide),
    aget_aset_self]

/-! ## Sorting lemmas -/

theorem sortDescBy_eq_insertionSort {α : Type} (key : α → ℚ) (l : List α) :
    sortDescBy key l = List.insertionSort (fun a b => key a ≥ key b) l := by
  induction l with
  | nil => rfl
  | cons x xs ih =>
    rw [sortDescBy, List.insertionSort, ih]
    generalize List.insertionSort (fun a b => key a ≥ key b) xs = m
    induction m with
    | nil => rfl
    | cons y ys ihm =>
      rw [insertDescBy, List.orderedInsert]
      split
      · rfl
      · rw [ihm]

theorem sortDescBy_perm {α : Type} (key : α → ℚ) (l : List α) :
    (sortDescBy key l).Perm l := by
  rw [sortDescBy_eq_insertionSort]
  exact List.perm_insertionSort _ l

theorem sortDescBy_length {α : Type} (key : α → ℚ) (l : List α) :
    (sortDescBy key l).length = l.length :=
  (sortDescBy_perm key l).length_eq

theorem sortDescBy_sorted {α : Type} (key : α → ℚ) (l : List α) :
    List.Sorted (fun a b => key a ≥ key b) (sortDescBy key l) := by
  haveI : IsTotal α (fun a b => key a ≥ key b) :=
    ⟨fun a b => (le_total (key b) (key a)).imp id id⟩
  haveI : IsTrans α (fun a b => key a ≥ key b) :=
    ⟨fun _ _ _ hab hbc => le_trans hbc hab⟩
  rw [sortDescBy_eq_insertionSort]
  exact List.sorted_insertionSort _ l

theorem sortDesc_perm (l : List ℚ) : (sortDesc l).Perm l :=
  sortDescBy_perm id l

theorem sortDesc_length (l : List ℚ) : (sortDesc l).length = l.length :=
  sortDescBy_length id l

/-- The first three elements of the descending sort dominate the rest:
taking them really takes "the top 3 values". -/
theorem sortDesc_take_three_largest (l : List ℚ) :
    ∀ x ∈ (sortDesc l).take 3, ∀ y ∈ (sortDesc l).drop 3, y ≤ x := by
  have hs : List.Sorted (fun a b : ℚ => a ≥ b) (sortDesc l) := sortDescBy_sorted id l
  have := List.take_append_drop 3 (sortDesc l)
  intro x hx y hy
  have hp : List.Pairwise (fun a b : ℚ => a ≥ b)
      ((sortDesc l).take 3 ++ (sortDesc l).drop 3) := by
    rw [this]; exact hs
  exact (List.pairwise_append.mp hp).2.2 x hx y hy

/-! ## Claim-side definitions and the claims -/

/-- `calculate_threat_score` computes exactly the spec's
category-threat-score. -/
theorem calculate_threat_score_eq (m : List (String × ℚ)) :
    calculate_threat_score m = top_three_mean (m.map Prod.snd) := by
  rw [calculate_threat_score, top_three_mean]
  by_cases h : m = []
  · simp [h]
  · have hv : m.map Prod.snd ≠ [] := by simpa using h
    have hlen : (sortDesc (m.map Prod.snd)).length ≠ 0 := by
      rw [sortDesc_length]
      simpa using hv
    have htop : (sortDesc (m.map Prod.snd)).take 3 ≠ [] := by
      intro hh
      have := congrArg List.length hh
      simp only [List.length_take, List.length_nil] at this
      omega
    simp [h, hv, htop]

/-! ## Bounds for Python `min`/`max` over lists -/

theorem foldl_min_le_init (l : List ℚ) (a : ℚ) : l.foldl min a ≤ a := by
  induction l generalizing a with
  | nil => exact le_refl a
  | cons y ys ih => exact le_trans (ih (min a y)) (min_le_left a y)

theorem foldl_min_le_mem (l : List ℚ) (a : ℚ) : ∀ x ∈ l, l.foldl min a ≤ x := by
  induction l generalizing a with
  | nil => intro x hx; exact absurd hx (List.not_mem_nil x)
  | cons y ys ih =>
    intro x hx
    rcases List.mem_cons.mp hx with rfl | hx'
    · exact le_trans (foldl_min_le_init ys (min a x)) (min_le_right a x)
    · exact ih (min a y) x hx'

theorem pyMin_le (l : List ℚ) : ∀ x ∈ l, pyMin l ≤ x := by
  cases l with
  | nil => intro x hx; exact absurd hx (List.not_mem_nil x)
  | cons y ys =>
    intro x hx
    rcases List.mem_cons.mp hx with rfl | hx'
    · exact foldl_min_le_init ys x
    · exact foldl_min_le_mem ys y x hx'

theorem init_le_foldl_max (l : List ℚ) (a : ℚ) : a ≤ l.foldl max a := by
  induction l generalizing a with
  | nil => exact le_refl a
  | cons y ys ih => exact le_trans (le_max_left a y) (ih (max a y))

theorem mem_le_foldl_max (l : List ℚ) (a : ℚ) : ∀ x ∈ l, x ≤ l.foldl max a := by
  induction l generalizing a with
  | nil => intro x hx; exact absurd hx (List.not_mem_nil x)
  | cons y ys ih =>
    intro x hx
    rcases List.mem_cons.mp hx with rfl | hx'
    · exact le_trans (le_max_right a x) (init_le_foldl_max ys (max a x))
    · exact ih (max a y) x hx'

theorem le_pyMax (l : List ℚ) : ∀ x ∈ l, x ≤ pyMax l := by
  cases l with
  | nil => intro x hx; exact absurd hx (List.not_mem_nil x)
  | cons y ys =>
    intro x hx
    rcases List.mem_cons.mp hx with rfl | hx'
    · exact init_le_foldl_max ys x
    · exact mem_le_foldl_max ys y x hx'

/-! ## Pattern-map lemmas -/

/-- `aset` preserves a predicate on the stored values when the new value
satisfies it. -/
theorem aset_forall_values {β : Type} (P : β → Prop) (l : List (String × β))
    (k : String) (v : β) (hl : ∀ kv ∈ l, P kv.2) (hv : P v) :
    ∀ kv ∈ aset l k v, P kv.2 := by
  induction l with
  | nil =>
    intro kv hkv
    simp only [aset, List.mem_singleton] at hkv
    rw [hkv]; exact hv
  | cons kw rest ih =>
    obtain ⟨k', w⟩ := kw
    intro kv hkv
    by_cases h : k' = k
    · simp only [aset, if_pos h, List.mem_cons] at hkv
      rcases hkv with rfl | hkv'
      · exact hv
      · exact hl kv (List.mem_cons_of_mem _ hkv')
    · simp only [aset, if_neg h, List.mem_cons] at hkv
      rcases hkv with rfl | hkv'
      · exact hl (k', w) (List.mem_cons_self _ _)
      · exact ih (fun kv hkv => hl kv (List.mem_cons_of_mem _ hkv)) kv hkv'

/-- Every value stored by `detect_anti_democratic_patterns` is the fixed
weight 0.9. -/
theorem detect_adm_values (c : Caps) (t : String) :
    ∀ kv ∈ detect_anti_democratic_patterns c t, kv.2 = 9/10 := by
  rw [detect_anti_democratic_patterns]
  split
  · intro kv hkv; exact absurd hkv (List.not_mem_nil kv)
  · have main : ∀ (ps : List String) (acc : List (String × ℚ)),
        (∀ kv ∈ acc, kv.2 = 9/10) →
        ∀ kv ∈ ps.foldl (fun acc p =>
          if 0 < c.reCount p (preprocess_str t) then aset acc (patternKey p) (9/10 : ℚ)
          else acc) acc, kv.2 = 9/10 := by
      intro ps
      induction ps with
      | nil => intro acc hacc kv hkv; exact hacc kv hkv
      | cons p rest ih =>
        intro acc hacc
        simp only [List.foldl_cons]
        by_cases hm : 0 < c.reCount p (preprocess_str t)
        · rw [if_pos hm]
          exact ih _ (aset_forall_values (fun x => x = 9/10) acc (patternKey p)
            (9/10 : ℚ) hacc rfl)
        · rw [if_neg hm]
          exact ih _ hacc
    exact main anti_democratic_patterns [] (by intro kv hkv; exact absurd hkv (List.not_mem_nil kv))

/-- The pattern map depends on the regex engine only through which
patterns fire: engines agreeing on positivity of the match count produce
identical maps. -/
theorem detect_adm_count_invariant (c c' : Caps) (t : String)
    (h : ∀ p, (0 < c.reCount p (preprocess_str t)) ↔ (0 < c'.reCount p (preprocess_str t))) :
    detect_anti_democratic_patterns c t = detect_anti_democratic_patterns c' t := by
  rw [detect_anti_democratic_patterns, detect_anti_democratic_patterns]
  split
  · rfl
  · have main : ∀ (ps : List String) (acc : List (String × ℚ)),
        ps.foldl (fun acc p =>
          if 0 < c.reCount p (preprocess_str t) then aset acc (patternKey p) (9/10 : ℚ)
          else acc) acc =
        ps.foldl (fun acc p =>
          if 0 < c'.reCount p (preprocess_str t) then aset acc (patternKey p) (9/10 : ℚ)
          else acc) acc := by
      intro ps
      induction ps with
      | nil => intro acc; rfl
      | cons p rest ih =>
        intro acc
        simp only [List.foldl_cons]
        by_cases hm : 0 < c.reCount p (preprocess_str t)
        · rw [if_pos hm, if_pos ((h p).mp hm)]; exact ih _
        · rw [if_neg hm, if_neg (fun hh => hm ((h p).mpr hh))]; exact ih _
    exact main anti_democratic_patterns []

/-- The mean of a nonempty constant list is the constant. -/
theorem mean_const (w : ℚ) (l : List ℚ) (hne : l ≠ []) (hall : ∀ x ∈ l, x = w) :
    l.sum / (l.length : ℚ) = w := by
  have hsum : ∀ m : List ℚ, (∀ x ∈ m, x = w) → m.sum = (m.length : ℚ) * w := by
    intro m
    induction m with
    | nil => intro _; simp
    | cons y ys ih =>
      intro hm
      have hy : y = w := hm y (List.mem_cons_self _ _)
      have hys : ys.sum = (ys.length : ℚ) * w :=
        ih (fun x hx => hm x (List.mem_cons_of_mem _ hx))
      simp [hy, hys]
      ring
  have hlen : (l.length : ℚ) ≠ 0 := by
    simpa using (List.length_pos.mpr hne).ne'
  rw [hsum l hall, mul_comm, mul_div_assoc, div_self hlen, mul_one]

/-! ## The claims -/

/-- **C1** — For every analyzed document with non-empty derived text, the
overall threat score stored in the output equals 0.4 × the category threat
score + 0.4 × the anti-democratic score + 0.2 × the relationship aggregate
score, where the category threat score is the arithmetic mean of the top 3
values of the stored `CategoryScoreMap` (mean of all values if fewer than
3, 0 if the map is empty). -/
theorem C1_overall_score_weighted_sum (c : Caps) (d : Document)
    (h : derivedText d ≠ "") :
    ∃ (cm : List (String × ℚ)) (a r : ℚ),
      aget (analyze_document c d).1 "threat_categories" = some (.catMap cm) ∧
      aget (analyze_document c d).1 "anti_democratic_score" = some (.q a) ∧
      aget (analyze_document c d).1 "relationship_threat_score" = some (.q r) ∧
      aget (analyze_document c d).1 "threat_score" =
        some (.q ((4/10) * top_three_mean (cm.map Prod.snd) + (4/10) * a + (2/10) * r)) :=
  ⟨pipelineCats c (derivedText d), pipelineAdScore c (derivedText d),
    pipelineRelScore c (derivedText d),
    aget_analyze_document_cats c d h, aget_analyze_document_adscore c d h,
    aget_analyze_document_relscore c d h, by
      rw [aget_analyze_document_score c d h, pipelineThreatScore,
        calculate_threat_score_eq]⟩

/-- Witness for C1 at a concrete capability record and document. -/
theorem C1_overall_score_weighted_sum_witness :
    ∃ (cm : List (String × ℚ)) (a r : ℚ),
      aget (analyze_document trivialCaps witnessDoc).1 "threat_categories" =
        some (.catMap cm) ∧
      aget (analyze_document trivialCaps witnessDoc).1 "anti_democratic_score" =
        some (.q a) ∧
      aget (analyze_document trivialCaps witnessDoc).1 "relationship_threat_score" =
        some (.q r) ∧
      aget (analyze_document trivialCaps witnessDoc).1 "threat_score" =
        some (.q ((4/10) * top_three_mean (cm.map Prod.snd) + (4/10) * a + (2/10) * r)) :=
  C1_overall_score_weighted_sum trivialCaps witnessDoc (by decide)

/-- **C5** — For every document whose derived text is empty, the pipeline
returns the input record unmodified, with no new fields, and logs a
warning (not an error). -/
theorem C5_empty_text_noop (c : Caps) (d : Document)
    (h : derivedText d = "") :
    analyze_document c d = (d, [LogLevel.warning]) := by
  rw [analyze_document, if_pos (by simpa [derivedText] using h)]

/-- Witness for C5: the empty-text document is passed through with a
warning. -/
theorem C5_empty_text_noop_witness :
    analyze_document trivialCaps emptyTextDoc = (emptyTextDoc, [LogLevel.warning]) :=
  C5_empty_text_noop trivialCaps emptyTextDoc (by decide)

/-- **C6 counterexample** — the record the caller holds after
`analyze_document` is *not* the record handed in: the analysis fields were
added to it in place, so the input is not immutable and no separate
analysis record is created. -/
theorem C6_cex_input_record_mutated :
    (analyze_document trivialCaps witnessDoc).1 ≠ witnessDoc ∧
    aget witnessDoc "processed_text" = none ∧
    aget (analyze_document trivialCaps witnessDoc).1 "processed_text" =
      some (.s "the quick brown fox jumps over the lazy dog near the river") := by
  refine ⟨by decide, by decide, ?_⟩
  decide

/-- **C6 amended** — `analyze_document` mutates the caller's record in
place: it adds/overwrites exactly the analysis fields and preserves every
other field, returning the same augmented record rather than a separate
`AnalysisRecord`; only for empty derived text is the record returned
untouched. -/
theorem C6_amended_in_place_augmentation (c : Caps) (d : Document) :
    (∀ k, k ∉ analysisKeys → aget (analyze_document c d).1 k = aget d k) ∧
    (derivedText d ≠ "" →
      aget (analyze_document c d).1 "analysis_timestamp" = some (.s c.now)) ∧
    (derivedText d = "" → (analyze_document c d).1 = d) :=
  ⟨fun k hk => aget_analyze_document_not_mem c d k hk,
   fun h => aget_analyze_document_timestamp c d h,
   fun h => by rw [analyze_document, if_pos (by simpa [derivedText] using h)]⟩

/-- Witness for the amended C6 at a concrete document: the `title`-like
field is untouched and the timestamp field was added in place. -/
theorem C6_amended_in_place_augmentation_witness :
    aget (analyze_document trivialCaps witnessDoc).1 "text" = aget witnessDoc "text" ∧
    aget (analyze_document trivialCaps witnessDoc).1 "analysis_timestamp" =
      some (.s trivialCaps.now) :=
  ⟨(C6_amended_in_place_augmentation trivialCaps witnessDoc).1 "text" (by decide),
   (C6_amended_in_place_augmentation trivialCaps witnessDoc).2.1 (by decide)⟩

/-- **C7 counterexample** — on the empty text the pipeline does not store
a zero threat score, an empty entity bag, or an empty summary: it stores
nothing at all, so the output does not "have overall threat score 0" (the
field is absent, not 0). -/
theorem C7_cex_no_fields_stored_for_empty_text :
    (analyze_document trivialCaps emptyTextDoc).1 = emptyTextDoc ∧
    aget (analyze_document trivialCaps emptyTextDoc).1 "threat_score" = none ∧
    aget (analyze_document trivialCaps emptyTextDoc).1 "entities" = none ∧
    aget (analyze_document trivialCaps emptyTextDoc).1 "summary" = none ∧
    aget (analyze_document trivialCaps emptyTextDoc).1 "threat_score" ≠
      some (.q 0) := by
  refine ⟨by decide, by decide, by decide, by decide, ?_⟩
  intro hcontra
  have : (none : Option Value) = some (.q 0) := by
    calc (none : Option Value)
        = aget (analyze_document trivialCaps emptyTextDoc).1 "threat_score" := by decide
      _ = some (.q 0) := hcontra
  exact Option.noConfusion this

/-- **C7 amended** — for a document whose text is the empty string the
pipeline returns the record unchanged with *no* analysis fields; a
consumer reading the threat score with the driver's default of 0 obtains
0, and the entity extractor and summarizer applied directly to the empty
text return the empty bag and the empty string. -/
theorem C7_amended_empty_text_defaults (c : Caps) (d : Document)
    (h : derivedText d = "") (h0 : aget d "threat_score" = none) :
    (analyze_document c d).1 = d ∧
    getScoreDefault (analyze_document c d).1 = 0 ∧
    extract_entities c "" = [] ∧
    generate_summary c "" 150 = "" := by
  have he : analyze_document c d = (d, [LogLevel.warning]) := by
    rw [analyze_document, if_pos (by simpa [derivedText] using h)]
  refine ⟨by rw [he], ?_, ?_, ?_⟩
  · rw [he]; simp [getScoreDefault, h0]
  · rw [extract_entities]; simp
  · rw [generate_summary]; simp

/-- Witness for the amended C7 at the concrete empty-text document. -/
theorem C7_amended_empty_text_defaults_witness :
    (analyze_document trivialCaps emptyTextDoc).1 = emptyTextDoc ∧
    getScoreDefault (analyze_document trivialCaps emptyTextDoc).1 = 0 ∧
    extract_entities trivialCaps "" = [] ∧
    generate_summary trivialCaps "" 150 = "" :=
  C7_amended_empty_text_defaults trivialCaps emptyTextDoc (by decide) (by decide)

/-- **C10** — the anti-democratic aggregate score stored by the full
analysis takes only the values 0 (no pattern fired) or exactly 0.9 (at
least one pattern fired): every fired pattern carries the same weight 0.9
and the aggregate is their mean, so match count and pattern diversity
never change the aggregate. -/
theorem C10_adscore_zero_or_ninety (c : Caps) (d : Document)
    (h : derivedText d ≠ "") :
    aget (analyze_document c d).1 "anti_democratic_score" = some (.q 0) ∨
    aget (analyze_document c d).1 "anti_democratic_score" = some (.q (9/10)) := by
  rw [aget_analyze_document_adscore c d h, pipelineAdScore]
  by_cases hm : detect_anti_democratic_patterns c (derivedText d) = []
  · left; rw [if_pos hm]
  · right
    rw [if_neg hm]
    have hvals : ∀ x ∈ (detect_anti_democratic_patterns c (derivedText d)).map Prod.snd,
        x = 9/10 := by
      intro x hx
      obtain ⟨kv, hkv, rfl⟩ := List.mem_map.mp hx
      exact detect_adm_values c (derivedText d) kv hkv
    have hne : (detect_anti_democratic_patterns c (derivedText d)).map Prod.snd ≠ [] := by
      simpa using hm
    rw [mean_const (9/10) _ hne hvals]

/-- Witness for C10 at a concrete capability record and document. -/
theorem C10_adscore_zero_or_ninety_witness :
    aget (analyze_document trivialCaps witnessDoc).1 "anti_democratic_score" =
      some (.q 0) ∨
    aget (analyze_document trivialCaps witnessDoc).1 "anti_democratic_score" =
      some (.q (9/10)) :=
  C10_adscore_zero_or_ninety trivialCaps witnessDoc (by decide)

/-- **C3** — every pattern that matches at least once contributes exactly
the fixed weight 0.9 under its pattern key; the map is unchanged under any
regex engine agreeing on *which* patterns fire (so multiple matches of the
same pattern change nothing); and the stored anti-democratic aggregate
equals the arithmetic mean of the fired pattern weights, or 0 when no
pattern fires. -/
theorem C3_pattern_weights_and_mean (c c' : Caps) (d : Document)
    (h : derivedText d ≠ "")
    (hcc : ∀ p, (0 < c.reCount p (preprocess_str (derivedText d))) ↔
                (0 < c'.reCount p (preprocess_str (derivedText d)))) :
    (∀ kv ∈ detect_anti_democratic_patterns c (derivedText d), kv.2 = 9/10) ∧
    detect_anti_democratic_patterns c (derivedText d) =
      detect_anti_democratic_patterns c' (derivedText d) ∧
    aget (analyze_document c d).1 "anti_democratic_matches" =
      some (.patMap (detect_anti_democratic_patterns c (derivedText d))) ∧
    aget (analyze_document c d).1 "anti_democratic_score" =
      some (.q (if detect_anti_democratic_patterns c (derivedText d) = [] then 0
        else ((detect_anti_democratic_patterns c (derivedText d)).map Prod.snd).sum /
          (((detect_anti_democratic_patterns c (derivedText d)).map Prod.snd).length : ℚ))) :=
  ⟨detect_adm_values c (derivedText d),
   detect_adm_count_invariant c c' (derivedText d) hcc,
   aget_analyze_document_adm c d h,
   by rw [aget_analyze_document_adscore c d h, pipelineAdScore]⟩

/-- Witness for C3: two engines reporting one resp. two matches per
pattern at a concrete document. -/
theorem C3_pattern_weights_and_mean_witness :
    (∀ kv ∈ detect_anti_democratic_patterns onesCaps (derivedText witnessDoc),
      kv.2 = 9/10) ∧
    detect_anti_democratic_patterns onesCaps (derivedText witnessDoc) =
      detect_anti_democratic_patterns twosCaps (derivedText witnessDoc) ∧
    aget (analyze_document onesCaps witnessDoc).1 "anti_democratic_matches" =
      some (.patMap (detect_anti_democratic_patterns onesCaps (derivedText witnessDoc))) ∧
    aget (analyze_document onesCaps witnessDoc).1 "anti_democratic_score" =
      some (.q (if detect_anti_democratic_patterns onesCaps (derivedText witnessDoc) = []
        then 0
        else ((detect_anti_democratic_patterns onesCaps (derivedText witnessDoc)).map
          Prod.snd).sum /
          (((detect_anti_democratic_patterns onesCaps (derivedText witnessDoc)).map
            Prod.snd).length : ℚ))) :=
  C3_pattern_weights_and_mean onesCaps twosCaps witnessDoc (by decide)
    (fun p => by simp [onesCaps, twosCaps])

/-- **C2 counterexample** — when all seven cosine similarities are equal
(here `-1/2`, a value cosine similarity can take against every prototype
at once), `analyze_threat_categories` passes the raw similarities through
unnormalized, and the produced value `-1/2` lies outside `[0,1]` — so the
claim that every value of either scoring path lies in `[0,1]` fails on the
similarity path. -/
theorem C2_cex_passthrough_value_out_of_range :
    aget (analyze_threat_categories negSimCaps "martial law") "voting_rights" =
      some (-(1/2 : ℚ)) ∧
    ¬ (0 ≤ -(1/2 : ℚ)) := by
  constructor
  · rw [analyze_threat_categories]
    norm_num [negSimCaps, categoryNames, threat_categories, pyMin, pyMax, aget]
  · norm_num

/-- **C2 amended** — both scoring paths return maps whose key list is
exactly the fixed 7-category taxonomy.  Every keyword-path value lies in
`[0,1]` unconditionally; every similarity-path value lies in `[0,1]`
whenever at least two of the cosine similarities differ (when all are
equal the raw similarities are passed through and may leave `[0,1]`). -/
theorem C2_amended_category_map_shape (c : Caps) (text : String)
    (hn : text ≠ "") (hnlp : c.nlpAvailable = true) :
    ((keyword_based_scoring text).map Prod.fst = categoryNames ∧
      ∀ v ∈ (keyword_based_scoring text).map Prod.snd, 0 ≤ v ∧ v ≤ 1) ∧
    ((analyze_threat_categories c text).map Prod.fst = categoryNames ∧
      (pyMin (categoryNames.map (c.simOf text)) < pyMax (categoryNames.map (c.simOf text)) →
        ∀ v ∈ (analyze_threat_categories c text).map Prod.snd, 0 ≤ v ∧ v ≤ 1)) := by
  have hguard : ¬ (text = "" ∨ ¬ c.nlpAvailable = true) := by simp [hn, hnlp]
  have hvals : (categoryNames.map (fun cat => (cat, c.simOf text cat))).map Prod.snd =
      categoryNames.map (c.simOf text) := by
    simp [List.map_map]
  constructor
  · constructor
    · rw [keyword_based_scoring, if_neg hn]
      simp only [List.map_map, categoryNames]
      rfl
    · intro v hv
      rw [keyword_based_scoring, if_neg hn] at hv
      simp only [List.map_map, List.mem_map, Function.comp] at hv
      obtain ⟨ck, hck, rfl⟩ := hv
      refine ⟨le_min (by norm_num) (by positivity), min_le_left _ _⟩
  · rw [analyze_threat_categories, if_neg hguard]
    constructor
    · by_cases hmm : pyMax ((categoryNames.map (fun cat => (cat, c.simOf text cat))).map
          Prod.snd) > pyMin ((categoryNames.map (fun cat => (cat, c.simOf text cat))).map
          Prod.snd)
      · rw [if_pos hmm]
        simp only [List.map_map]
        rfl
      · rw [if_neg hmm]
        simp only [List.map_map]
        rfl
    · intro hlt v hv
      simp only [] at hv
      rw [hvals] at hv
      by_cases hmm : pyMax (categoryNames.map (c.simOf text)) >
          pyMin (categoryNames.map (c.simOf text))
      · rw [if_pos hmm] at hv
        simp only [List.map_map, List.mem_map, Function.comp] at hv
        obtain ⟨cat, hcat, rfl⟩ := hv
        have hmem : c.simOf text cat ∈ categoryNames.map (c.simOf text) :=
          List.mem_map.mpr ⟨cat, hcat, rfl⟩
        have h1 : pyMin (categoryNames.map (c.simOf text)) ≤ c.simOf text cat :=
          pyMin_le _ _ hmem
        have h2 : c.simOf text cat ≤ pyMax (categoryNames.map (c.simOf text)) :=
          le_pyMax _ _ hmem
        have hpos : (0 : ℚ) < pyMax (categoryNames.map (c.simOf text)) -
            pyMin (categoryNames.map (c.simOf text)) := sub_pos.mpr hmm
        constructor
        · exact div_nonneg (sub_nonneg.mpr h1) (le_of_lt hpos)
        · rw [div_le_one hpos]
          exact sub_le_sub_right h2 _
      · exact absurd hlt hmm

/-- Witness for the amended C2 at a concrete model with distinct
similarities. -/
theorem C2_amended_category_map_shape_witness :
    ((keyword_based_scoring "martial law").map Prod.fst = categoryNames ∧
      ∀ v ∈ (keyword_based_scoring "martial law").map Prod.snd, 0 ≤ v ∧ v ≤ 1) ∧
    ((analyze_threat_categories variedSimCaps "martial law").map Prod.fst = categoryNames ∧
      (pyMin (categoryNames.map (variedSimCaps.simOf "martial law")) <
          pyMax (categoryNames.map (variedSimCaps.simOf "martial law")) →
        ∀ v ∈ (analyze_threat_categories variedSimCaps "martial law").map Prod.snd,
          0 ≤ v ∧ v ≤ 1)) :=
  C2_amended_category_map_shape variedSimCaps "martial law" (by decide) rfl

/-- One unfolding step of `batch_process` on a nonempty item list. -/
theorem batch_process_cons {α β : Type} (items : List α) (f : List α → List β)
    (bs : Nat) (gc : Bool) (hne : items ≠ []) (hbs : bs ≠ 0) :
    batch_process items f bs gc =
      (f (items.take bs) ++ (batch_process (items.drop bs) f bs gc).1,
       .batch (items.take bs).length ::
         (if gc then [BatchEvent.gcPass] else []) ++
           (batch_process (items.drop bs) f bs gc).2) := by
  cases items with
  | nil => exact absurd rfl hne
  | cons a as =>
    rw [batch_process]
    simp [hbs]

/-- **C8** — on a list of 25 documents with batch size 10 (and the default
`force_gc`), `batch_process` hands the per-document processing function
exactly 3 slices of sizes 10, 10 and 5, returns the 25 results in input
order, and runs one garbage-collection pass after each batch — in
particular exactly one between each pair of consecutive batches.  (This is
the behavior the claim describes for the orchestrator; `process_documents`
itself never reaches this code, see the claim's record.) -/
theorem C8_batch_trace {α β : Type} (g : α → β) (docs : List α)
    (h : docs.length = 25) :
    batch_process docs (List.map g) 10 true =
      (docs.map g,
       [.batch 10, .gcPass, .batch 10, .gcPass, .batch 5, .gcPass]) := by
  have h0 : docs ≠ [] := by intro hh; rw [hh] at h; simp at h
  have hd1len : (docs.drop 10).length = 15 := by simp [h]
  have h1 : docs.drop 10 ≠ [] := by
    intro hh; rw [hh] at hd1len; simp at hd1len
  have hd2len : ((docs.drop 10).drop 10).length = 5 := by simp [h]
  have h2 : (docs.drop 10).drop 10 ≠ [] := by
    intro hh; rw [hh] at hd2len; simp at hd2len
  have hd3 : ((docs.drop 10).drop 10).drop 10 = [] := by
    apply List.eq_nil_of_length_eq_zero; simp [h]
  rw [batch_process_cons _ _ _ _ h0 (by norm_num),
    batch_process_cons _ _ _ _ h1 (by norm_num),
    batch_process_cons _ _ _ _ h2 (by norm_num), hd3]
  have hta : ((docs.drop 10).drop 10).take 10 = (docs.drop 10).drop 10 :=
    List.take_of_length_le (by rw [hd2len]; norm_num)
  rw [batch_process, hta, List.append_nil, ← List.map_append, List.take_append_drop,
    ← List.map_append, List.take_append_drop]
  simp [List.length_take, h, hd1len, hd2len]

/-- Witness for C8 on the concrete list `0,…,24`. -/
theorem C8_batch_trace_witness :
    batch_process (List.range 25) (List.map (fun n => n + 1)) 10 true =
      ((List.range 25).map (fun n => n + 1),
       [.batch 10, .gcPass, .batch 10, .gcPass, .batch 5, .gcPass]) :=
  C8_batch_trace (fun n => n + 1) (List.range 25) (by decide)

/-- **C4 counterexample** — the emitted relationship's type tag is
`"agency_voting_restriction"` (underscores), not the claim's
`"agency-voting-restriction"` (hyphens); likewise for the legal-term rule. -/
theorem C4_cex_type_tag_spelling :
    detect_entity_relationship_threats relCexCaps
        "The FBI will restrict voting access." relCexEntities =
      [Rel.mk "agency_voting_restriction" "FBI"
        "The FBI will restrict voting access." (4/5 : ℚ)] ∧
    "agency_voting_restriction" ≠ "agency-voting-restriction" ∧
    "law_civil_liberty_restriction" ≠ "law-civil-liberty-restriction" := by
  refine ⟨rfl, by decide, by decide⟩

/-- **C4 amended** — the relationship detector behaves exactly as the
claim describes with the type tags spelled as in the code: per sentence,
one `agency_voting_restriction` relationship (score 0.8) per
government-agency entity whenever a voting keyword and a restrictive verb
co-occur, one `law_civil_liberty_restriction` relationship (score 0.75)
per legal-term entity whenever a civil-liberty keyword and a restrictive
verb co-occur, and the stored relationship aggregate is the maximum
emitted score, or 0 when none are emitted. -/
theorem C4_relationship_rules (c : Caps) (d : Document) (text : String)
    (entities : List (String × List String)) (h : derivedText d ≠ "") :
    detect_entity_relationship_threats c text entities =
      relationship_spec c text entities ∧
    aget (analyze_document c d).1 "entity_relationships" =
      some (.rels (pipelineRels c (derivedText d))) ∧
    aget (analyze_document c d).1 "relationship_threat_score" =
      some (.q (if pipelineRels c (derivedText d) = [] then 0
        else pyMax ((pipelineRels c (derivedText d)).map Rel.threat_score))) := by
  refine ⟨?_, aget_analyze_document_rels c d h, ?_⟩
  · rw [detect_entity_relationship_threats, relationship_spec]
    split
    · rfl
    · simp only []
      congr 1
      · apply congrArg List.flatten
        apply List.map_congr_left
        intro st _
        by_cases ha : (dedupList ((aget entities "GOV_AGENCY").getD [])).filter
            (fun a => hasSubstr (pyLower a) (pyLower st)) = []
        · rw [if_pos ha, ha]
          simp only [List.map_nil, ite_self]
        · rw [if_neg ha]
      · apply congrArg List.flatten
        apply List.map_congr_left
        intro st _
        by_cases hl : (dedupList (((aget entities "LAW_TERM").getD []) ++
            ((aget entities "LAW").getD []) ++ ((aget entities "USC_CITATION").getD
              []))).filter (fun l => hasSubstr (pyLower l) (pyLower st)) = []
        · rw [if_pos hl, hl]
          simp only [List.map_nil, ite_self]
        · rw [if_neg hl]
  · rw [aget_analyze_document_relscore c d h, pipelineRelScore]
    simp only [List.map_eq_nil_iff]

/-- Witness for the amended C4 at concrete inputs (one relationship is
emitted for the agency/voting sentence). -/
theorem C4_relationship_rules_witness :
    detect_entity_relationship_threats relCexCaps
        "The FBI will restrict voting access." relCexEntities =
      relationship_spec relCexCaps "The FBI will restrict voting access."
        relCexEntities ∧
    aget (analyze_document trivialCaps witnessDoc).1 "entity_relationships" =
      some (.rels (pipelineRels trivialCaps (derivedText witnessDoc))) ∧
    aget (analyze_document trivialCaps witnessDoc).1 "relationship_threat_score" =
      some (.q (if pipelineRels trivialCaps (derivedText witnessDoc) = [] then 0
        else pyMax ((pipelineRels trivialCaps (derivedText witnessDoc)).map
          Rel.threat_score))) := by
  have base := C4_relationship_rules trivialCaps witnessDoc
    "The FBI will restrict voting access." relCexEntities (by decide)
  exact ⟨(C4_relationship_rules relCexCaps witnessDoc
      "The FBI will restrict voting access." relCexEntities (by decide)).1,
    base.2.1, base.2.2⟩

/-- A `filterMap` whose function keeps or drops by a predicate is the
filter followed by the map. -/
theorem filterMap_if_eq_filter_map {α β : Type} (p : α → Prop) [DecidablePred p]
    (g : α → β) (l : List α) :
    l.filterMap (fun a => if p a then none else some (g a)) =
      (l.filter (fun a => !(decide (p a)))).map g := by
  induction l with
  | nil => rfl
  | cons a as ih => by_cases h : p a <;> simp [h, ih]

/-- The source's per-sentence score agrees with the claim's amended
wording (0.6/0.4/0.2 spelled out; 0.15 granted per category). -/
theorem score_sentence_eq_amended (c : Caps) (i : Nat) (s : SpacySent) :
    score_sentence c i s = amended_score_sentence c i s := by
  rw [score_sentence, amended_score_sentence]
  congr 2
  · congr 1
    rcases i with _ | _ | _ | n
    · norm_num
    · norm_num
    · norm_num
    · rw [if_neg (by omega), if_neg (by omega), if_neg (by omega), if_neg (by omega)]

/-- **C9 amended** — `generate_summary` is exactly the claim's summarizer
with the per-category reading of the 0.15 bonus: it discards sentences
under 5 tokens, scores the rest with the position/entity/category/pattern
bonuses (0.15 once per category containing a term), selects the top 3 by
score, restores document order, joins with spaces, and truncates with an
ellipsis beyond the maximum length. -/
theorem C9_summary_refines_amended_claim (c : Caps) (text : String) (maxLength : Nat) :
    generate_summary c text maxLength =
      claim_generate_summary amended_score_sentence c text maxLength := by
  rw [generate_summary, claim_generate_summary]
  by_cases h0 : text = ""
  · rw [if_pos h0, if_pos h0]
  · rw [if_neg h0, if_neg h0]
    by_cases hn : c.nlpAvailable = true
    · rw [if_pos hn, if_pos hn]
      simp only []
      by_cases hs : c.sents (text.take 50000) = []
      · rw [if_pos hs, if_pos hs]
      · rw [if_neg hs, if_neg hs]
        rw [filterMap_if_eq_filter_map
          (fun si : Nat × SpacySent => (splitWs si.2.text).length < 5)
          (fun si : Nat × SpacySent => (si.1, si.2, score_sentence c si.1 si.2))]
        have hmap : ((c.sents (text.take 50000)).enum.filter
            (fun si => !(decide ((splitWs si.2.text).length < 5)))).map
              (fun si => (si.1, si.2, score_sentence c si.1 si.2)) =
            ((c.sents (text.take 50000)).enum.filter
              (fun si => !(decide ((splitWs si.2.text).length < 5)))).map
              (fun si => (si.1, si.2, amended_score_sentence c si.1 si.2)) :=
          List.map_congr_left (fun si _ => by rw [score_sentence_eq_amended])
        rw [hmap]
    · rw [if_neg hn, if_neg hn]

/-- **C9 counterexample** — on a five-sentence text the source's scoring
(0.15 per category) selects the free-speech/voter-suppression sentence for
the summary, while the claim's scoring (0.15 once) selects a different
third sentence, so the claim's description of the summarizer is false on
the code. -/
theorem C9_cex_per_category_bonus_changes_selection :
    generate_summary summaryCexCaps summaryCexText 1000 =
      "Alpha beta gamma delta epsilon. Zeta eta theta iota kappa. Concerns about free speech and voter suppression continue." ∧
    claim_generate_summary claim_score_sentence summaryCexCaps summaryCexText 1000 =
      "Alpha beta gamma delta epsilon. Zeta eta theta iota kappa. Mu nu xi omicron pi." ∧
    generate_summary summaryCexCaps summaryCexText 1000 ≠
      claim_generate_summary claim_score_sentence summaryCexCaps summaryCexText 1000 := by
  have hsents : summaryCexCaps.sents (summaryCexText.take 50000) =
      [SpacySent.mk "Alpha beta gamma delta epsilon." 0,
       SpacySent.mk "Zeta eta theta iota kappa." 0,
       SpacySent.mk "Mu nu xi omicron pi." 0,
       SpacySent.mk "Concerns about free speech and voter suppression continue." 0,
       SpacySent.mk "They will suspend the constitution soon now." 0] := rfl
  have e0 : score_sentence summaryCexCaps 0
      (SpacySent.mk "Alpha beta gamma delta epsilon." 0) = 3/5 := by
    have hcat : (threat_categories.filter (fun ck => ck.2.any (fun term =>
        hasSubstr (pyLower term)
          (pyLower (SpacySent.mk "Alpha beta gamma delta epsilon." 0).text)))).length
        = 0 := by decide
    have hpat : (anti_democratic_patterns.any (fun p => decide (0 <
        summaryCexCaps.reCount p
          (SpacySent.mk "Alpha beta gamma delta epsilon." 0).text))) = false := by decide
    rw [score_sentence, hcat, hpat]
    norm_num
  have e1 : score_sentence summaryCexCaps 1
      (SpacySent.mk "Zeta eta theta iota kappa." 0) = 2/5 := by
    have hcat : (threat_categories.filter (fun ck => ck.2.any (fun term =>
        hasSubstr (pyLower term)
          (pyLower (SpacySent.mk "Zeta eta theta iota kappa." 0).text)))).length
        = 0 := by decide
    have hpat : (anti_democratic_patterns.any (fun p => decide (0 <
        summaryCexCaps.reCount p
          (SpacySent.mk "Zeta eta theta iota kappa." 0).text))) = false := by decide
    rw [score_sentence, hcat, hpat]
    norm_num
  have e2 : score_sentence summaryCexCaps 2
      (SpacySent.mk "Mu nu xi omicron pi." 0) = 1/5 := by
    have hcat : (threat_categories.filter (fun ck => ck.2.any (fun term =>
        hasSubstr (pyLower term)
          (pyLower (SpacySent.mk "Mu nu xi omicron pi." 0).text)))).length = 0 := by
      decide
    have hpat : (anti_democratic_patterns.any (fun p => decide (0 <
        summaryCexCaps.reCount p
          (SpacySent.mk "Mu nu xi omicron pi." 0).text))) = false := by decide
    rw [score_sentence, hcat, hpat]
    norm_num
  have e3 : score_sentence summaryCexCaps 3
      (SpacySent.mk "Concerns about free speech and voter suppression continue." 0)
      = 3/10 := by
    have hcat : (threat_categories.filter (fun ck => ck.2.any (fun term =>
        hasSubstr (pyLower term)
          (pyLower (SpacySent.mk
            "Concerns about free speech and voter suppression continue." 0).text)))).length
        = 2 := by decide
    have hpat : (anti_democratic_patterns.any (fun p => decide (0 <
        summaryCexCaps.reCount p
          (SpacySent.mk
            "Concerns about free speech and voter suppression continue." 0).text)))
        = false := by decide
    rw [score_sentence, hcat, hpat]
    norm_num
  have e4 : score_sentence summaryCexCaps 4
      (SpacySent.mk "They will suspend the constitution soon now." 0) = 1/5 := by
    have hcat : (threat_categories.filter (fun ck => ck.2.any (fun term =>
        hasSubstr (pyLower term)
          (pyLower (SpacySent.mk
            "They will suspend the constitution soon now." 0).text)))).length = 0 := by
      decide
    have hpat : (anti_democratic_patterns.any (fun p => decide (0 <
        summaryCexCaps.reCount p
          (SpacySent.mk "They will suspend the constitution soon now." 0).text)))
        = true := by decide
    rw [score_sentence, hcat, hpat]
    norm_num
  have a0 : claim_score_sentence summaryCexCaps 0
      (SpacySent.mk "Alpha beta gamma delta epsilon." 0) = 3/5 := by
    have hcat : (threat_categories.any (fun ck => ck.2.any (fun term =>
        hasSubstr (pyLower term)
          (pyLower (SpacySent.mk "Alpha beta gamma delta epsilon." 0).text))))
        = false := by decide
    have hpat : (anti_democratic_patterns.any (fun p => decide (0 <
        summaryCexCaps.reCount p
          (SpacySent.mk "Alpha beta gamma delta epsilon." 0).text))) = false := by decide
    rw [claim_score_sentence, hcat, hpat]
    norm_num
  have a1 : claim_score_sentence summaryCexCaps 1
      (SpacySent.mk "Zeta eta theta iota kappa." 0) = 2/5 := by
    have hcat : (threat_categories.any (fun ck => ck.2.any (fun term =>
        hasSubstr (pyLower term)
          (pyLower (SpacySent.mk "Zeta eta theta iota kappa." 0).text)))) = false := by
      decide
    have hpat : (anti_democratic_patterns.any (fun p => decide (0 <
        summaryCexCaps.reCount p
          (SpacySent.mk "Zeta eta theta iota kappa." 0).text))) = false := by decide
    rw [claim_score_sentence, hcat, hpat]
    norm_num
  have a2 : claim_score_sentence summaryCexCaps 2
      (SpacySent.mk "Mu nu xi omicron pi." 0) = 1/5 := by
    have hcat : (threat_categories.any (fun ck => ck.2.any (fun term =>
        hasSubstr (pyLower term)
          (pyLower (SpacySent.mk "Mu nu xi omicron pi." 0).text)))) = false := by decide
    have hpat : (anti_democratic_patterns.any (fun p => decide (0 <
        summaryCexCaps.reCount p
          (SpacySent.mk "Mu nu xi omicron pi." 0).text))) = false := by decide
    rw [claim_score_sentence, hcat, hpat]
    norm_num
  have a3 : claim_score_sentence summaryCexCaps 3
      (SpacySent.mk "Concerns about free speech and voter suppression continue." 0)
      = 3/20 := by
    have hcat : (threat_categories.any (fun ck => ck.2.any (fun term =>
        hasSubstr (pyLower term)
          (pyLower (SpacySent.mk
            "Concerns about free speech and voter suppression continue." 0).text))))
        = true := by decide
    have hpat : (anti_democratic_patterns.any (fun p => decide (0 <
        summaryCexCaps.reCount p
          (SpacySent.mk
            "Concerns about free speech and voter suppression continue." 0).text)))
        = false := by decide
    rw [claim_score_sentence, hcat, hpat]
    norm_num
  have a4 : claim_score_sentence summaryCexCaps 4
      (SpacySent.mk "They will suspend the constitution soon now." 0) = 1/5 := by
    have hcat : (threat_categories.any (fun ck => ck.2.any (fun term =>
        hasSubstr (pyLower term)
          (pyLower (SpacySent.mk "They will suspend the constitution soon now." 0).text))))
        = false := by decide
    have hpat : (anti_democratic_patterns.any (fun p => decide (0 <
        summaryCexCaps.reCount p
          (SpacySent.mk "They will suspend the constitution soon now." 0).text)))
        = true := by decide
    rw [claim_score_sentence, hcat, hpat]
    norm_num
  have hfil : ((([SpacySent.mk "Alpha beta gamma delta epsilon." 0,
       SpacySent.mk "Zeta eta theta iota kappa." 0,
       SpacySent.mk "Mu nu xi omicron pi." 0,
       SpacySent.mk "Concerns about free speech and voter suppression continue." 0,
       SpacySent.mk "They will suspend the constitution soon now." 0] :
        List SpacySent).enum).filter
      (fun si => !(decide ((splitWs si.2.text).length < 5)))) =
      [(0, SpacySent.mk "Alpha beta gamma delta epsilon." 0),
       (1, SpacySent.mk "Zeta eta theta iota kappa." 0),
       (2, SpacySent.mk "Mu nu xi omicron pi." 0),
       (3, SpacySent.mk "Concerns about free speech and voter suppression continue." 0),
       (4, SpacySent.mk "They will suspend the constitution soon now." 0)] := by decide
  have hA : generate_summary summaryCexCaps summaryCexText 1000 =
      "Alpha beta gamma delta epsilon. Zeta eta theta iota kappa. Concerns about free speech and voter suppression continue." := by
    rw [generate_summary, if_neg (by decide),
      if_pos (show summaryCexCaps.nlpAvailable = true from rfl)]
    simp only []
    rw [hsents, if_neg (by decide)]
    rw [filterMap_if_eq_filter_map
      (fun si : Nat × SpacySent => (splitWs si.2.text).length < 5)
      (fun si : Nat × SpacySent => (si.1, si.2, score_sentence summaryCexCaps si.1 si.2))]
    rw [hfil]
    simp only [List.map_cons, List.map_nil]
    rw [e0, e1, e2, e3, e4]
    norm_num [sortDescBy, insertDescBy, sortAscBy, insertAscBy, List.take,
      truncateEllipsis]
    decide
  have hB : claim_generate_summary claim_score_sentence summaryCexCaps summaryCexText
      1000 =
      "Alpha beta gamma delta epsilon. Zeta eta theta iota kappa. Mu nu xi omicron pi." := by
    rw [claim_generate_summary, if_neg (by decide),
      if_pos (show summaryCexCaps.nlpAvailable = true from rfl)]
    simp only []
    rw [hsents, if_neg (by decide)]
    rw [hfil]
    simp only [List.map_cons, List.map_nil]
    rw [a0, a1, a2, a3, a4]
    norm_num [sortDescBy, insertDescBy, sortAscBy, insertAscBy, List.take,
      truncateEllipsis]
    decide
  refine ⟨hA, hB, ?_⟩
  rw [hA, hB]
  decide

end Sentinel
